import Mathlib

/-!
# Verification of the Doris backend agent task dispatcher

Shallow embedding of `src/be/src/agent/task_worker_pool.cpp` (namespace
`doris`, class `TaskWorkerPool`): the process-wide task-signature registry
(`_record_task_info` / `_remove_task_info`), the fair-share selector
(`_get_next_task_index`), the finish-RPC retry loop (`_finish_task`), the
publish-version retry loop, the per-kind worker callbacks' effect on the
report-version counter, and an event-trace semantics serializing the worker
loops, over which the drained-state accounting invariants are proved.

Modelling conventions:
* `uint32_t` counters are `Nat` values kept reduced modulo `2^32`; the C++
  `x += 1` / `x -= 1` become `u32inc` / `u32dec` (wrap-around preserved).
* The `std::atomic_ulong` report version is a `Nat` reduced modulo `2^64`.
* `std::set<int64_t>` is a `List Int` inserted only when absent; `erase`
  is `List.filter`.
* The C++ `float` rate arithmetic of `_get_next_task_index` is modelled
  over `ℚ`. The two diverge only when `total_task_count` is `0` with a
  positive numerator (IEEE gives `inf`, `ℚ` division gives the junk value
  `0`); with numerator `0` both sides make the `<=` test false (IEEE: any
  comparison with NaN is false), which is the only divisor-zero case the
  registry can reach.
* Blocking, threads and locks are serialized: an `Event` trace interleaves
  submissions, worker dequeues and task completions in any order; this is
  the standard serialization of the pool's mutex-protected critical
  sections.
-/

set_option autoImplicit false

namespace DorisAgent

/-- Thrift `TTaskType`: the task kinds the dispatcher handles. -/
inductive TTaskType where
  | CREATE_TABLE
  | DROP_TABLE
  | PUSH
  | REALTIME_PUSH
  | DELETE
  | SCHEMA_CHANGE
  | ROLLUP
  | PUBLISH_VERSION
  | CLEAR_ALTER_TASK
  | CLEAR_TRANSACTION_TASK
  | CLONE
  | STORAGE_MEDIUM_MIGRATE
  | CHECK_CONSISTENCY
  | UPLOAD
  | DOWNLOAD
  | MAKE_SNAPSHOT
  | RELEASE_SNAPSHOT
  | MOVE
  | RECOVER_TABLET
  deriving DecidableEq, Repr

/-- Thrift `TPriority`. -/
inductive TPriority where
  | HIGH
  | NORMAL
  deriving DecidableEq, Repr

/-- Thrift `TPushType` (the payload field `push_req.push_type`). -/
inductive TPushType where
  | LOAD
  | DELETE
  | LOAD_DELETE
  deriving DecidableEq, Repr

/-- `AgentStatus` (agent/status.h): coarse status of engine and RPC calls. -/
inductive AgentStatus where
  | DORIS_SUCCESS
  | DORIS_ERROR
  | DORIS_TASK_REQUEST_ERROR
  | DORIS_INTERNAL_ERROR
  | DORIS_PUSH_HAD_LOADED
  | DORIS_CREATE_TABLE_EXIST
  deriving DecidableEq, Repr

/-- `OLAPStatus`, restricted to the outcomes the dispatcher distinguishes. -/
inductive OLAPStatus where
  | OLAP_SUCCESS
  | OLAP_ERR_OTHER
  | OLAP_ERR_TABLE_NOT_FOUND
  deriving DecidableEq, Repr

/-- Thrift `TStatusCode`, restricted to the codes this file produces. -/
inductive TStatusCode where
  | OK
  | RUNTIME_ERROR
  | ANALYSIS_ERROR
  deriving DecidableEq, Repr

/-- `TAgentTaskRequest`, restricted to the fields the dispatcher itself
reads: kind, signature, the optional `resource_info.user` (with its thrift
`__isset` bit) and the optional `priority` (with its `__isset` bit).
Kind-specific payloads are passed separately to the step functions that
consume them. -/
structure TAgentTaskRequest where
  task_type : TTaskType
  signature : Int
  isset_resource_info : Bool
  user : String
  isset_priority : Bool
  priority : TPriority
  deriving DecidableEq, Repr

instance : Inhabited TAgentTaskRequest :=
  ⟨⟨TTaskType.PUSH, 0, false, "", false, TPriority.NORMAL⟩⟩

/-- `TASK_FINISH_MAX_RETRY` (task_worker_pool.cpp line 71). -/
def TASK_FINISH_MAX_RETRY : Nat := 3

/-- `PUBLISH_VERSION_MAX_RETRY` (task_worker_pool.cpp line 72). -/
def PUBLISH_VERSION_MAX_RETRY : Nat := 3

/-- Modulus of the `uint32_t` registry counters. -/
def U32_MOD : Nat := 4294967296

/-- Modulus of the `std::atomic_ulong` report version (64-bit). -/
def U64_MOD : Nat := 18446744073709551616

/-- `uint32_t` increment with wrap-around. -/
def u32inc (n : Nat) : Nat := (n + 1) % U32_MOD

/-- `uint32_t` decrement with wrap-around (`x -= 1` on an unsigned value). -/
def u32dec (n : Nat) : Nat := (n + (U32_MOD - 1)) % U32_MOD

/-- `atomic_ulong` increment with wrap-around (`++_s_report_version`). -/
def u64inc (n : Nat) : Nat := (n + 1) % U64_MOD

/-- The four process-wide (`static`) registry tables of `TaskWorkerPool`:
`_s_task_signatures`, `_s_running_task_user_count`,
`_s_total_task_user_count` and `_s_total_task_count`. A kind or user
absent from the C++ `std::map` reads as the default (empty set / `0`),
which total functions model directly. -/
structure RegistryState where
  task_signatures : TTaskType → List Int
  running_task_user_count : TTaskType → String → Nat
  total_task_user_count : TTaskType → String → Nat
  total_task_count : TTaskType → Nat

/-- The registry at process start: every table empty / zero. -/
def initRegistry : RegistryState :=
  { task_signatures := fun _ => [],
    running_task_user_count := fun _ _ => 0,
    total_task_user_count := fun _ _ => 0,
    total_task_count := fun _ => 0 }

/-- Point update of a per-kind per-user counter table:
`table[k][u] = v` on a `std::map<TTaskType, std::map<string, uint32_t>>`. -/
def updateCount (f : TTaskType → String → Nat) (k : TTaskType) (u : String)
    (v : Nat) : TTaskType → String → Nat :=
  Function.update f k (Function.update (f k) u v)

/-- `TaskWorkerPool::_record_task_info` (lines 228-255): under
`_s_task_signatures_lock`, reject a signature already live for the kind;
otherwise insert it and, for `PUSH` only, bump `_s_total_task_user_count`
and `_s_total_task_count`. Returns the C++ `ret` together with the updated
registry. -/
def record_task_info (reg : RegistryState) (task_type : TTaskType)
    (signature : Int) (user : String) : Bool × RegistryState :=
  let signature_set := reg.task_signatures task_type
  if signature ∈ signature_set then
    (false, reg)
  else
    let reg1 : RegistryState :=
      { reg with task_signatures :=
          Function.update reg.task_signatures task_type (signature_set ++ [signature]) }
    if task_type = TTaskType.PUSH then
      (true,
        { reg1 with
          total_task_user_count := updateCount reg1.total_task_user_count task_type user
            (u32inc (reg1.total_task_user_count task_type user)),
          total_task_count := Function.update reg1.total_task_count task_type
            (u32inc (reg1.total_task_count task_type)) })
    else
      (true, reg1)

/-- `TaskWorkerPool::_remove_task_info` (lines 257-280): erase the
signature from the kind's live set; for `PUSH` only, decrement
`_s_total_task_user_count`, `_s_total_task_count` and (under the second
lock) `_s_running_task_user_count`. -/
def remove_task_info (reg : RegistryState) (task_type : TTaskType)
    (signature : Int) (user : String) : RegistryState :=
  let erased := (reg.task_signatures task_type).filter (fun s => decide (s ≠ signature))
  let reg1 : RegistryState :=
    { reg with task_signatures := Function.update reg.task_signatures task_type erased }
  if task_type = TTaskType.PUSH then
    { reg1 with
      total_task_user_count := updateCount reg1.total_task_user_count task_type user
        (u32dec (reg1.total_task_user_count task_type user)),
      total_task_count := Function.update reg1.total_task_count task_type
        (u32dec (reg1.total_task_count task_type)),
      running_task_user_count := updateCount reg1.running_task_user_count task_type user
        (u32dec (reg1.running_task_user_count task_type user)) }
  else
    reg1

/-- The final increment of `_get_next_task_index` (lines 399-402):
`_s_running_task_user_count[tasks[index].task_type][user] += 1`. -/
def incRunning (reg : RegistryState) (k : TTaskType) (u : String) : RegistryState :=
  { reg with
    running_task_user_count := updateCount reg.running_task_user_count k u
      (u32inc (reg.running_task_user_count k u)) }

/-- `user_total_rate` of `_get_next_task_index` (lines 364-365):
`total_task_user_count[kind][user] * 1.0 / total_task_count[kind]`,
modelled over `ℚ` (see the file header for the float caveat). -/
def user_total_rate (reg : RegistryState) (k : TTaskType) (user : String) : ℚ :=
  (reg.total_task_user_count k user : ℚ) / (reg.total_task_count k : ℚ)

/-- `user_running_rate` of `_get_next_task_index` (lines 366-367):
`(running_task_user_count[kind][user] + 1) * 1.0 / thread_count`. -/
def user_running_rate (reg : RegistryState) (thread_count : Nat) (k : TTaskType)
    (user : String) : ℚ :=
  ((reg.running_task_user_count k user : ℚ) + 1) / (thread_count : ℚ)

/-- The eligibility test of `_get_next_task_index` (line 377):
`running_task_user_count[kind][user] == 0 || user_running_rate <= user_total_rate`.
In the source the two rates (including the division whose divisor is
`total_task_count[kind]`) are computed for every scanned, non-skipped task
before this test. -/
def eligible_user (reg : RegistryState) (thread_count : Nat) (k : TTaskType)
    (user : String) : Bool :=
  reg.running_task_user_count k user == 0
    || decide (user_running_rate reg thread_count k user ≤ user_total_rate reg k user)

/-- Whether a queued task counts as HIGH priority for the selector
(line 348): `task.__isset.priority && task.priority == TPriority::HIGH`. -/
def isHighTask (t : TAgentTaskRequest) : Bool :=
  t.isset_priority && decide (t.priority = TPriority.HIGH)

/-- The scan loop of `_get_next_task_index` (lines 341-384). Arguments
after the queue: the absolute index `i` of the head of the remaining
queue, the current value of the C++ `user` local (updated only when a
scanned task has `resource_info` set, otherwise carried over), and
`improper_users`. Returns the chosen `(index, user)`, or `none` when the
scan falls off the end of the queue. -/
def get_next_task_loop (reg : RegistryState) (thread_count : Nat)
    (priority : TPriority) :
    List TAgentTaskRequest → Nat → String → List String → Option (Nat × String)
  | [], _, _, _ => none
  | task :: rest, i, user0, improper_users =>
    let user := if task.isset_resource_info then task.user else user0
    match priority with
    | TPriority.HIGH =>
      if isHighTask task then some (i, user)
      else get_next_task_loop reg thread_count TPriority.HIGH rest (i + 1) user improper_users
    | TPriority.NORMAL =>
      if user ∈ improper_users then
        get_next_task_loop reg thread_count TPriority.NORMAL rest (i + 1) user improper_users
      else if eligible_user reg thread_count task.task_type user then
        some (i, user)
      else
        get_next_task_loop reg thread_count TPriority.NORMAL rest (i + 1) user
          (user :: improper_users)

/-- `TaskWorkerPool::_get_next_task_index` (lines 332-404). On a chosen
index the running count of the loop's final `user` is bumped for the
chosen task's kind; when the scan found nothing, a HIGH caller gets `-1`
with the registry untouched, while a NORMAL caller falls back to index 0,
resetting `user` from `tasks[0]` (lines 386-397). The source reads
`tasks[0]` / `tasks[index]` without a bounds check (callers guarantee a
non-empty queue); `List.getD` with the `Inhabited` default models that
access. -/
def get_next_task_index (thread_count : Nat) (tasks : List TAgentTaskRequest)
    (priority : TPriority) (reg : RegistryState) : Int × RegistryState :=
  match get_next_task_loop reg thread_count priority tasks 0 "" [] with
  | some (i, user) =>
    ((i : Int), incRunning reg (tasks.getD i default).task_type user)
  | none =>
    if priority = TPriority.HIGH then
      (-1, reg)
    else
      let user := if (tasks.getD 0 default).isset_resource_info
                  then (tasks.getD 0 default).user else ""
      (0, incRunning reg (tasks.getD 0 default).task_type user)

/-- The dequeue section of `_push_worker_thread_callback` (lines 671-702):
run the selector; on a negative index leave the queue untouched (the
worker notifies a peer, sleeps and retries), otherwise remove
`tasks[index]` from the queue. Returns (selected task, remaining queue,
updated registry). -/
def push_worker_select (thread_count : Nat) (tasks : List TAgentTaskRequest)
    (priority : TPriority) (reg : RegistryState) :
    Option TAgentTaskRequest × List TAgentTaskRequest × RegistryState :=
  let r := get_next_task_index thread_count tasks priority reg
  if r.1 < 0 then
    (none, tasks, r.2)
  else
    (some (tasks.getD r.1.toNat default), tasks.eraseIdx r.1.toNat, r.2)

/-- `TFinishTaskRequest`, restricted to the fields the claims inspect:
kind, signature, `task_status.status_code`, and the optional
`report_version`, `error_tablet_ids`, `finish_tablet_infos` (as tablet
ids) and `request_version`. The remaining optional payload fields
(`error_msgs`, checksum, snapshot paths, file lists, `backend`, ...) play
no role in any claim and are omitted. -/
structure TFinishTaskRequest where
  task_type : TTaskType
  signature : Int
  status_code : TStatusCode
  report_version : Option Nat
  error_tablet_ids : Option (List Int)
  finish_tablet_infos : Option (List Int)
  request_version : Option Int
  deriving DecidableEq, Repr

/-- The retry loop of `TaskWorkerPool::_finish_task` (lines 309-330),
counted in calls. `client n` is the outcome of the `n`-th
`_master_client->finish_task` call: its transport status (the C++
`client_status`) paired with the master-side `result.status.status_code`.
`calls` counts the calls already made, the last argument is the remaining
budget `TASK_FINISH_MAX_RETRY - try_time`. A transport success breaks out
of the loop; only a transport failure increments `try_time`. The
master-side code is only logged. -/
def finish_task_from (client : Nat → AgentStatus × TStatusCode) (calls : Nat) :
    Nat → Nat
  | 0 => calls
  | Nat.succ remaining =>
    if (client calls).1 = AgentStatus.DORIS_SUCCESS then calls + 1
    else finish_task_from client (calls + 1) remaining

/-- Number of `finish_task` RPC calls `TaskWorkerPool::_finish_task` makes
against the given client outcomes. -/
def finish_task_calls (client : Nat → AgentStatus × TStatusCode) : Nat :=
  finish_task_from client 0 TASK_FINISH_MAX_RETRY

/-- The unconditional tail of every worker callback: `_finish_task(...)`
followed by `_remove_task_info(...)` — the registry release does not
depend on how many finish attempts succeeded. Returns the number of
finish-RPC calls and the released registry. -/
def finish_and_release (client : Nat → AgentStatus × TStatusCode)
    (reg : RegistryState) (task : TAgentTaskRequest) (user : String) :
    Nat × RegistryState :=
  (finish_task_calls client, remove_task_info reg task.task_type task.signature user)

/-- `_create_tablet_worker_thread_callback` (lines 406-456), after the
dequeue: the engine `create_tablet` outcome decides `status_code`; only
success bumps `_s_report_version`, and the envelope attaches the counter
as read after that bump. Returns (finish request, new report version,
registry after release). -/
def create_tablet_step (create_status : OLAPStatus) (rv : Nat)
    (reg : RegistryState) (sig : Int) : TFinishTaskRequest × Nat × RegistryState :=
  let status_code := if create_status ≠ OLAPStatus.OLAP_SUCCESS
                     then TStatusCode.RUNTIME_ERROR else TStatusCode.OK
  let rv1 := if create_status ≠ OLAPStatus.OLAP_SUCCESS then rv else u64inc rv
  let finish : TFinishTaskRequest :=
    { task_type := TTaskType.CREATE_TABLE, signature := sig,
      status_code := status_code, report_version := some rv1,
      error_tablet_ids := none, finish_tablet_infos := none, request_version := none }
  (finish, rv1, remove_task_info reg TTaskType.CREATE_TABLE sig "")

/-- `_drop_tablet_worker_thread_callback` (lines 458-506): `drop_tablet`
failure other than `TABLE_NOT_FOUND` is an error; the report version is
never touched and the envelope carries no `report_version`. -/
def drop_tablet_step (drop_status : OLAPStatus) (rv : Nat)
    (reg : RegistryState) (sig : Int) : TFinishTaskRequest × Nat × RegistryState :=
  let status : AgentStatus :=
    if drop_status ≠ OLAPStatus.OLAP_SUCCESS ∧
        drop_status ≠ OLAPStatus.OLAP_ERR_TABLE_NOT_FOUND
    then AgentStatus.DORIS_ERROR else AgentStatus.DORIS_SUCCESS
  let status_code := if status ≠ AgentStatus.DORIS_SUCCESS
                     then TStatusCode.RUNTIME_ERROR else TStatusCode.OK
  let finish : TFinishTaskRequest :=
    { task_type := TTaskType.DROP_TABLE, signature := sig,
      status_code := status_code, report_version := none,
      error_tablet_ids := none, finish_tablet_infos := none, request_version := none }
  (finish, rv, remove_task_info reg TTaskType.DROP_TABLE sig "")

/-- `TaskWorkerPool::_alter_tablet` (lines 554-644) as invoked by
`_alter_tablet_worker_thread_callback`: an invalid alter subtype gives
`DORIS_TASK_REQUEST_ERROR` (reported as `ANALYSIS_ERROR`); otherwise the
engine schema-change outcome decides success. On engine success
`_s_report_version` is bumped BEFORE the new-tablet-info lookup, so the
bump survives even when `_get_tablet_info` then fails and the task is
reported as `RUNTIME_ERROR`. `finish_tablet_infos` is set only when
everything succeeded. -/
def alter_tablet_step (task_type : TTaskType) (sc_status : OLAPStatus)
    (get_info_ok : Bool) (new_tablet_id : Int) (rv : Nat) (reg : RegistryState)
    (sig : Int) : TFinishTaskRequest × Nat × RegistryState :=
  let status0 : AgentStatus :=
    if task_type = TTaskType.ROLLUP ∨ task_type = TTaskType.SCHEMA_CHANGE
    then AgentStatus.DORIS_SUCCESS else AgentStatus.DORIS_TASK_REQUEST_ERROR
  let status1 : AgentStatus :=
    if status0 = AgentStatus.DORIS_SUCCESS then
      (if sc_status ≠ OLAPStatus.OLAP_SUCCESS then AgentStatus.DORIS_ERROR
       else AgentStatus.DORIS_SUCCESS)
    else status0
  let rv1 := if status1 = AgentStatus.DORIS_SUCCESS then u64inc rv else rv
  let status2 : AgentStatus :=
    if status1 = AgentStatus.DORIS_SUCCESS then
      (if get_info_ok then AgentStatus.DORIS_SUCCESS else AgentStatus.DORIS_ERROR)
    else status1
  let status_code :=
    if status2 = AgentStatus.DORIS_SUCCESS then TStatusCode.OK
    else if status2 = AgentStatus.DORIS_TASK_REQUEST_ERROR then TStatusCode.ANALYSIS_ERROR
    else TStatusCode.RUNTIME_ERROR
  let finish : TFinishTaskRequest :=
    { task_type := task_type, signature := sig,
      status_code := status_code, report_version := some rv1,
      error_tablet_ids := none,
      finish_tablet_infos := if status2 = AgentStatus.DORIS_SUCCESS
                             then some [new_tablet_id] else none,
      request_version := none }
  (finish, rv1, remove_task_info reg task_type sig "")

/-- The post-execution part of `_push_worker_thread_callback`
(lines 704-757): `status` is what `EngineBatchLoadTask::execute` left in
the task's status slot, `tablet_infos` what it collected. On
`DORIS_PUSH_HAD_LOADED` the task is released with NO finish request built
and no report-version bump (lines 711-718). Otherwise a success bumps
`_s_report_version` and sets the tablet infos; a `DELETE`-type push also
echoes `request_version`; the envelope attaches the counter as read after
the possible bump (line 753). -/
def push_worker_complete (status : AgentStatus) (tablet_infos : List Int)
    (push_type : TPushType) (version : Int) (task : TAgentTaskRequest)
    (user : String) (rv : Nat) (reg : RegistryState) :
    Option TFinishTaskRequest × Nat × RegistryState :=
  if status = AgentStatus.DORIS_PUSH_HAD_LOADED then
    (none, rv, remove_task_info reg task.task_type task.signature user)
  else
    let rv1 := if status = AgentStatus.DORIS_SUCCESS then u64inc rv else rv
    let status_code :=
      if status = AgentStatus.DORIS_SUCCESS then TStatusCode.OK
      else if status = AgentStatus.DORIS_TASK_REQUEST_ERROR then TStatusCode.ANALYSIS_ERROR
      else TStatusCode.RUNTIME_ERROR
    let finish : TFinishTaskRequest :=
      { task_type := task.task_type, signature := task.signature,
        status_code := status_code, report_version := some rv1,
        error_tablet_ids := none,
        finish_tablet_infos := if status = AgentStatus.DORIS_SUCCESS
                               then some tablet_infos else none,
        request_version := if push_type = TPushType.DELETE then some version else none }
    (some finish, rv1, remove_task_info reg task.task_type task.signature user)

/-- The retry loop of `_publish_version_worker_thread_callback`
(lines 790-805). `engine n` is the outcome of the `n`-th
`publish_version` engine call: its `OLAPStatus` and the error-tablet list
the call wrote (the local list is cleared before every call, so the list
in flight is always exactly the latest call's). Arguments: remaining
budget `PUBLISH_VERSION_MAX_RETRY - retry_time`, the current `res` and
error list, the calls made so far, the `sleep(1)` pauses taken so far.
Returns (final `res`, final error list, calls, sleeps). -/
def publish_version_loop (engine : Nat → OLAPStatus × List Int) :
    Nat → OLAPStatus → List Int → Nat → Nat → OLAPStatus × List Int × Nat × Nat
  | 0, res, errs, attempts, sleeps => (res, errs, attempts, sleeps)
  | Nat.succ fuel, _res, _errs, attempts, sleeps =>
    let r := engine attempts
    if r.1 = OLAPStatus.OLAP_SUCCESS then (r.1, r.2, attempts + 1, sleeps)
    else publish_version_loop engine fuel r.1 r.2 (attempts + 1) (sleeps + 1)

/-- Outcome of one `_publish_version_worker_thread_callback` iteration. -/
structure PublishOutcome where
  finish : TFinishTaskRequest
  attempts : Nat
  sleeps : Nat
  report_version : Nat
  reg : RegistryState

/-- `_publish_version_worker_thread_callback` (lines 765-831) after the
dequeue: run the bounded retry loop; on final failure report
`RUNTIME_ERROR` and attach the last attempt's error tablet ids, on
success report `OK` with `error_tablet_ids` left unset. The report
version is never touched. -/
def publish_version_step (engine : Nat → OLAPStatus × List Int) (rv : Nat)
    (reg : RegistryState) (sig : Int) : PublishOutcome :=
  let r := publish_version_loop engine PUBLISH_VERSION_MAX_RETRY
    OLAPStatus.OLAP_SUCCESS [] 0 0
  let status_code := if r.1 ≠ OLAPStatus.OLAP_SUCCESS
                     then TStatusCode.RUNTIME_ERROR else TStatusCode.OK
  let finish : TFinishTaskRequest :=
    { task_type := TTaskType.PUBLISH_VERSION, signature := sig,
      status_code := status_code, report_version := none,
      error_tablet_ids := if r.1 ≠ OLAPStatus.OLAP_SUCCESS then some r.2.1 else none,
      finish_tablet_infos := none, request_version := none }
  { finish := finish, attempts := r.2.2.1, sleeps := r.2.2.2,
    report_version := rv, reg := remove_task_info reg TTaskType.PUBLISH_VERSION sig "" }

/-- `_clear_alter_task_worker_thread_callback` (lines 833-882): engine
failure is `RUNTIME_ERROR`; the report version is never touched. -/
def clear_alter_task_step (clear_status : OLAPStatus) (rv : Nat)
    (reg : RegistryState) (sig : Int) : TFinishTaskRequest × Nat × RegistryState :=
  let status_code := if clear_status ≠ OLAPStatus.OLAP_SUCCESS
                     then TStatusCode.RUNTIME_ERROR else TStatusCode.OK
  let finish : TFinishTaskRequest :=
    { task_type := TTaskType.CLEAR_ALTER_TASK, signature := sig,
      status_code := status_code, report_version := none,
      error_tablet_ids := none, finish_tablet_infos := none, request_version := none }
  (finish, rv, remove_task_info reg TTaskType.CLEAR_ALTER_TASK sig "")

/-- `_clear_transaction_task_worker_thread_callback` (lines 884-929): the
engine call returns void, so the task always reports `OK`; the report
version is never touched. -/
def clear_transaction_task_step (rv : Nat) (reg : RegistryState) (sig : Int) :
    TFinishTaskRequest × Nat × RegistryState :=
  let finish : TFinishTaskRequest :=
    { task_type := TTaskType.CLEAR_TRANSACTION_TASK, signature := sig,
      status_code := TStatusCode.OK, report_version := none,
      error_tablet_ids := none, finish_tablet_infos := none, request_version := none }
  (finish, rv, remove_task_info reg TTaskType.CLEAR_TRANSACTION_TASK sig "")

/-- `_clone_worker_thread_callback` (lines 931-993): success includes
`DORIS_CREATE_TABLE_EXIST` (the tablet already exists), in which case the
tablet infos are still attached; the report version is never touched. -/
def clone_step (status : AgentStatus) (tablet_infos : List Int) (rv : Nat)
    (reg : RegistryState) (sig : Int) : TFinishTaskRequest × Nat × RegistryState :=
  let ok := status = AgentStatus.DORIS_SUCCESS ∨
            status = AgentStatus.DORIS_CREATE_TABLE_EXIST
  let finish : TFinishTaskRequest :=
    { task_type := TTaskType.CLONE, signature := sig,
      status_code := if ok then TStatusCode.OK else TStatusCode.RUNTIME_ERROR,
      report_version := none, error_tablet_ids := none,
      finish_tablet_infos := if ok then some tablet_infos else none,
      request_version := none }
  (finish, rv, remove_task_info reg TTaskType.CLONE sig "")

/-- `_storage_medium_migrate_worker_thread_callback` (lines 995-1045). -/
def storage_medium_migrate_step (res : OLAPStatus) (rv : Nat)
    (reg : RegistryState) (sig : Int) : TFinishTaskRequest × Nat × RegistryState :=
  let status_code := if res ≠ OLAPStatus.OLAP_SUCCESS
                     then TStatusCode.RUNTIME_ERROR else TStatusCode.OK
  let finish : TFinishTaskRequest :=
    { task_type := TTaskType.STORAGE_MEDIUM_MIGRATE, signature := sig,
      status_code := status_code, report_version := none,
      error_tablet_ids := none, finish_tablet_infos := none, request_version := none }
  (finish, rv, remove_task_info reg TTaskType.STORAGE_MEDIUM_MIGRATE sig "")

/-- `_check_consistency_worker_thread_callback` (lines 1047-1107): the
envelope also carries checksum and request version fields (here only
`request_version` is modelled); the report version is never touched. -/
def check_consistency_step (res : OLAPStatus) (version : Int) (rv : Nat)
    (reg : RegistryState) (sig : Int) : TFinishTaskRequest × Nat × RegistryState :=
  let status_code := if res ≠ OLAPStatus.OLAP_SUCCESS
                     then TStatusCode.RUNTIME_ERROR else TStatusCode.OK
  let finish : TFinishTaskRequest :=
    { task_type := TTaskType.CHECK_CONSISTENCY, signature := sig,
      status_code := status_code, report_version := none,
      error_tablet_ids := none, finish_tablet_infos := none,
      request_version := some version }
  (finish, rv, remove_task_info reg TTaskType.CHECK_CONSISTENCY sig "")

/-- `_upload_worker_thread_callback` (lines 1254-1315): snapshot-loader
outcome decides the status; the report version is never touched. -/
def upload_step (upload_ok : Bool) (rv : Nat) (reg : RegistryState) (sig : Int) :
    TFinishTaskRequest × Nat × RegistryState :=
  let finish : TFinishTaskRequest :=
    { task_type := TTaskType.UPLOAD, signature := sig,
      status_code := if upload_ok then TStatusCode.OK else TStatusCode.RUNTIME_ERROR,
      report_version := none, error_tablet_ids := none,
      finish_tablet_infos := none, request_version := none }
  (finish, rv, remove_task_info reg TTaskType.UPLOAD sig "")

/-- `_download_worker_thread_callback` (lines 1317-1381). -/
def download_step (download_ok : Bool) (rv : Nat) (reg : RegistryState) (sig : Int) :
    TFinishTaskRequest × Nat × RegistryState :=
  let finish : TFinishTaskRequest :=
    { task_type := TTaskType.DOWNLOAD, signature := sig,
      status_code := if download_ok then TStatusCode.OK else TStatusCode.RUNTIME_ERROR,
      report_version := none, error_tablet_ids := none,
      finish_tablet_infos := none, request_version := none }
  (finish, rv, remove_task_info reg TTaskType.DOWNLOAD sig "")

/-- `_make_snapshot_thread_callback` (lines 1383-1466): failure of the
snapshot itself, or of the optional file listing, is `RUNTIME_ERROR`. -/
def make_snapshot_step (make_status : OLAPStatus) (list_files_set : Bool)
    (list_ok : Bool) (rv : Nat) (reg : RegistryState) (sig : Int) :
    TFinishTaskRequest × Nat × RegistryState :=
  let status_code :=
    if make_status ≠ OLAPStatus.OLAP_SUCCESS then TStatusCode.RUNTIME_ERROR
    else if list_files_set ∧ ¬ list_ok then TStatusCode.RUNTIME_ERROR
    else TStatusCode.OK
  let finish : TFinishTaskRequest :=
    { task_type := TTaskType.MAKE_SNAPSHOT, signature := sig,
      status_code := status_code, report_version := none,
      error_tablet_ids := none, finish_tablet_infos := none, request_version := none }
  (finish, rv, remove_task_info reg TTaskType.MAKE_SNAPSHOT sig "")

/-- `_release_snapshot_thread_callback` (lines 1468-1523). -/
def release_snapshot_step (release_status : OLAPStatus) (rv : Nat)
    (reg : RegistryState) (sig : Int) : TFinishTaskRequest × Nat × RegistryState :=
  let status_code := if release_status ≠ OLAPStatus.OLAP_SUCCESS
                     then TStatusCode.RUNTIME_ERROR else TStatusCode.OK
  let finish : TFinishTaskRequest :=
    { task_type := TTaskType.RELEASE_SNAPSHOT, signature := sig,
      status_code := status_code, report_version := none,
      error_tablet_ids := none, finish_tablet_infos := none, request_version := none }
  (finish, rv, remove_task_info reg TTaskType.RELEASE_SNAPSHOT sig "")

/-- `_move_dir_thread_callback` (lines 1543-1607). -/
def move_dir_step (move_status : AgentStatus) (rv : Nat) (reg : RegistryState)
    (sig : Int) : TFinishTaskRequest × Nat × RegistryState :=
  let status_code := if move_status ≠ AgentStatus.DORIS_SUCCESS
                     then TStatusCode.RUNTIME_ERROR else TStatusCode.OK
  let finish : TFinishTaskRequest :=
    { task_type := TTaskType.MOVE, signature := sig,
      status_code := status_code, report_version := none,
      error_tablet_ids := none, finish_tablet_infos := none, request_version := none }
  (finish, rv, remove_task_info reg TTaskType.MOVE sig "")

/-- `_recover_tablet_thread_callback` (lines 1642-1696). -/
def recover_tablet_step (res : OLAPStatus) (rv : Nat) (reg : RegistryState)
    (sig : Int) : TFinishTaskRequest × Nat × RegistryState :=
  let status_code := if res ≠ OLAPStatus.OLAP_SUCCESS
                     then TStatusCode.RUNTIME_ERROR else TStatusCode.OK
  let finish : TFinishTaskRequest :=
    { task_type := TTaskType.RECOVER_TABLET, signature := sig,
      status_code := status_code, report_version := none,
      error_tablet_ids := none, finish_tablet_infos := none, request_version := none }
  (finish, rv, remove_task_info reg TTaskType.RECOVER_TABLET sig "")

/-- One iteration of `_report_task_worker_thread_callback`
(lines 1109-1141): it sends a snapshot of `_s_task_signatures` and never
touches the report version. Returns (tasks sent, report version after). -/
def report_task_step (reg : RegistryState) (rv : Nat) :
    (TTaskType → List Int) × Nat :=
  (reg.task_signatures, rv)

/-- One iteration of `_report_disk_state_worker_thread_callback`
(lines 1143-1195): disk infos only; the report version is never read or
written. Returns the report version after the iteration. -/
def report_disk_state_step (rv : Nat) : Nat := rv

/-- One iteration of `_report_tablet_worker_thread_callback`
(lines 1197-1252): the request attaches the CURRENT value of
`_s_report_version` (line 1218) — the counter is read, never incremented.
When collecting the tablet infos fails the send is skipped. Returns
(report version attached to the send, if one happened; report version
after the iteration). -/
def report_tablet_step (rv : Nat) (collect_ok : Bool) : Option Nat × Nat :=
  (if collect_ok then some rv else none, rv)

/-- A task's own user as `submit_task` (lines 213-216) and the push
callback (lines 689-691) derive it: `resource_info.user` when set, the
anonymous empty string otherwise. -/
def ownUser (t : TAgentTaskRequest) : String :=
  if t.isset_resource_info then t.user else ""

/-- First index of the list satisfying the predicate (spec-side helper
for stating which index a scan chooses). -/
def firstIdx {α : Type} (p : α → Bool) : List α → Option Nat
  | [] => none
  | a :: l => if p a then some 0 else (firstIdx p l).map (fun j => j + 1)

/-- Each queued task paired with the value the selector's `user` local
holds when the scan reaches it: the task's own user when
`resource_info` is set, otherwise the value carried over from the
previous iteration (the argument is the value carried in). -/
def effUserList : List TAgentTaskRequest → String → List (TAgentTaskRequest × String)
  | [], _ => []
  | t :: ts, u0 =>
    let u := if t.isset_resource_info then t.user else u0
    (t, u) :: effUserList ts u

/-- Modelled from the claim text of C4: the NORMAL-priority selection as
the claim states it, with each task judged by its OWN user — scan from
the head, skip users already found improper, choose the first index whose
own user is eligible, marking the user improper otherwise; `none` when no
index qualifies. -/
def claim_normal_scan (reg : RegistryState) (thread_count : Nat) :
    List TAgentTaskRequest → Nat → List String → Option Nat
  | [], _, _ => none
  | t :: rest, i, improper =>
    let u := ownUser t
    if u ∈ improper then claim_normal_scan reg thread_count rest (i + 1) improper
    else if eligible_user reg thread_count t.task_type u then some i
    else claim_normal_scan reg thread_count rest (i + 1) (u :: improper)

/-- Modelled from the claim text of C4, continued: the claimed returned
index — the first index whose own user qualifies, or the unconditional
fallback 0. -/
def claimNormalIdx (thread_count : Nat) (tasks : List TAgentTaskRequest)
    (reg : RegistryState) : Nat :=
  (claim_normal_scan reg thread_count tasks 0 []).getD 0

/-- The index the NORMAL-priority selector actually returns, stated
declaratively: the first index whose EFFECTIVE user (own user when
`resource_info` is set, otherwise the user carried over from the last
task that had one, initially the empty string) passes the eligibility
test, or the unconditional fallback 0. -/
def amendedNormalIdx (thread_count : Nat) (tasks : List TAgentTaskRequest)
    (reg : RegistryState) : Nat :=
  (firstIdx (fun p => eligible_user reg thread_count p.1.task_type p.2)
    (effUserList tasks "")).getD 0

/-- The user whose running count the NORMAL-priority selector charges:
the chosen task's effective user, or — in the fallback — the own user of
the task at index 0. -/
def amendedNormalUser (thread_count : Nat) (tasks : List TAgentTaskRequest)
    (reg : RegistryState) : String :=
  match firstIdx (fun p => eligible_user reg thread_count p.1.task_type p.2)
      (effUserList tasks "") with
  | some i => ((effUserList tasks "").getD i default).2
  | none => ownUser (tasks.getD 0 default)

/-- Whether a kind's pool runs `_push_worker_thread_callback` (and hence
the fair-share selector): `TaskWorkerPool::start` (lines 112-200) wires it
for `PUSH`, `REALTIME_PUSH` and `DELETE`. -/
def usesPushCallback (k : TTaskType) : Bool :=
  decide (k = TTaskType.PUSH) || decide (k = TTaskType.REALTIME_PUSH) ||
    decide (k = TTaskType.DELETE)

/-- The dispatcher state the traces run over: the shared registry, one
intake queue per kind (`AgentServer` routes a submission to its kind's
pool), and the multiset of tasks currently held by a worker (selected,
executing, not yet released). -/
structure SysState where
  reg : RegistryState
  queues : TTaskType → List TAgentTaskRequest
  running : List TAgentTaskRequest

/-- `TaskWorkerPool::submit_task` (lines 209-226): derive the user from
the optional `resource_info`, call `_record_task_info`; push to the
pool's queue (and notify) only when admitted. -/
def submit_task (s : SysState) (task : TAgentTaskRequest) : SysState :=
  let user := ownUser task
  let r := record_task_info s.reg task.task_type task.signature user
  if r.1 then
    { s with
      reg := r.2,
      queues := Function.update s.queues task.task_type
        (s.queues task.task_type ++ [task]) }
  else
    { s with reg := r.2 }

/-- One serialized step of the system. `submit` is a master submission.
`dequeueFifo k` is a FIFO worker of pool `k` popping the queue head into
execution. `dequeuePush k tc prio` is a push-callback worker of pool `k`
(thread count `tc`, election priority `prio`) running the selector; a `-1`
leaves the queue as is. `complete n` finishes the `n`-th running task:
its finish report (if any) and one `_remove_task_info` with the user the
callback passes (the task's own user in the push callback, `""` in every
FIFO callback). Steps whose guard fails (empty queue, bad index, wrong
pool flavour) are no-ops. -/
inductive Event where
  | submit (t : TAgentTaskRequest)
  | dequeueFifo (k : TTaskType)
  | dequeuePush (k : TTaskType) (thread_count : Nat) (priority : TPriority)
  | complete (n : Nat)

/-- The transition function for one `Event`. -/
def stepEvent (s : SysState) : Event → SysState
  | Event.submit t => submit_task s t
  | Event.dequeueFifo k =>
    if usesPushCallback k then s
    else
      match s.queues k with
      | [] => s
      | t :: rest =>
        { s with
          queues := Function.update s.queues k rest,
          running := s.running ++ [t] }
  | Event.dequeuePush k tc prio =>
    if usesPushCallback k then
      if s.queues k = [] then s
      else
        let r := push_worker_select tc (s.queues k) prio s.reg
        match r.1 with
        | none => { s with reg := r.2.2 }
        | some t =>
          { s with
            reg := r.2.2,
            queues := Function.update s.queues k r.2.1,
            running := s.running ++ [t] }
    else s
  | Event.complete n =>
    if n < s.running.length then
      let t := s.running.getD n default
      let user := if usesPushCallback t.task_type then ownUser t else ""
      { s with
        reg := remove_task_info s.reg t.task_type t.signature user,
        running := s.running.eraseIdx n }
    else s

/-- The dispatcher at process start. -/
def initState : SysState :=
  { reg := initRegistry, queues := fun _ => [], running := [] }

/-- Run an event trace from the initial state. -/
def run (trace : List Event) : SysState :=
  trace.foldl stepEvent initState

/-- The hypothesis traces of C8 satisfy: every submitted task carries
`resource_info` (so the user the selector charges is the user the release
debits). -/
def eventIsset : Event → Prop
  | Event.submit t => t.isset_resource_info = true
  | _ => True

/-- Tasks of kind `k` that are queued or running: the tasks whose
signatures the registry's live set must hold. -/
def inflight (s : SysState) (k : TTaskType) : List TAgentTaskRequest :=
  s.queues k ++ s.running.filter (fun t => decide (t.task_type = k))

/-- All tasks of a list carry `resource_info`. -/
def allIsset (l : List TAgentTaskRequest) : Prop :=
  ∀ t ∈ l, t.isset_resource_info = true

/-- Number of tasks of a list whose own user is `u`. -/
def countUser (l : List TAgentTaskRequest) (u : String) : Nat :=
  l.countP (fun t => decide (ownUser t = u))

/-- The running tasks of kind `k`. -/
def runningOfKind (s : SysState) (k : TTaskType) : List TAgentTaskRequest :=
  s.running.filter (fun t => decide (t.task_type = k))

/-- The accounting invariant tying the registry tables to the queued and
running tasks; it needs no assumption on the tasks. `total_task_count` and
`total_task_user_count` are only ever touched for `PUSH`, so for `PUSH`
they mirror (mod `2^32`) the in-flight task counts while for every other
kind they stay `0` — in particular `total_task_count[DELETE] = 0` even
while DELETE tasks are queued for the fair-share selector. -/
structure InvCore (s : SysState) : Prop where
  queue_kind : ∀ k, ∀ t ∈ s.queues k, t.task_type = k
  nodup : ∀ k, (inflight s k).Pairwise (fun a b => a.signature ≠ b.signature)
  live : ∀ k sig, sig ∈ s.reg.task_signatures k ↔ ∃ t ∈ inflight s k, t.signature = sig
  total_user : ∀ u, s.reg.total_task_user_count TTaskType.PUSH u =
    countUser (inflight s TTaskType.PUSH) u % U32_MOD
  total_kind : s.reg.total_task_count TTaskType.PUSH =
    (inflight s TTaskType.PUSH).length % U32_MOD
  total_user_other : ∀ k, k ≠ TTaskType.PUSH → ∀ u, s.reg.total_task_user_count k u = 0
  total_kind_other : ∀ k, k ≠ TTaskType.PUSH → s.reg.total_task_count k = 0

/-- The full invariant, for traces whose submissions all carry
`resource_info`: additionally, the `PUSH` running counter mirrors the
running `PUSH` tasks. (No such mirror holds for `DELETE`: the selector
increments `running_task_user_count[DELETE]` but `_remove_task_info` never
decrements it.) -/
structure InvFull (s : SysState) extends InvCore s : Prop where
  isset_queues : ∀ k, allIsset (s.queues k)
  isset_running : allIsset s.running
  running_push : ∀ u, s.reg.running_task_user_count TTaskType.PUSH u =
    countUser (runningOfKind s TTaskType.PUSH) u % U32_MOD

/-- Concrete PUSH task (user `"a"`, `resource_info` set) for examples. -/
def exPushA : TAgentTaskRequest :=
  ⟨TTaskType.PUSH, 10, true, "a", false, TPriority.NORMAL⟩

/-- Concrete PUSH task with `resource_info` UNSET: inside the selector its
effective user is whatever the `user` local last held. -/
def exPushNoInfo : TAgentTaskRequest :=
  ⟨TTaskType.PUSH, 11, false, "", false, TPriority.NORMAL⟩

/-- Concrete DELETE task (user `"a"`): DELETE runs through the push
callback and the fair-share selector, but `_record_task_info` /
`_remove_task_info` maintain no counters for it. -/
def exDelete : TAgentTaskRequest :=
  ⟨TTaskType.DELETE, 7, true, "a", false, TPriority.NORMAL⟩

/-- Concrete HIGH-priority PUSH task. -/
def exPushHigh : TAgentTaskRequest :=
  ⟨TTaskType.PUSH, 12, true, "b", true, TPriority.HIGH⟩

/-- A registry in which user `"a"` is over quota for PUSH: one of three
admitted PUSH tasks is user `"a"`'s and one is already running, so with 4
workers `user_running_rate = 2/4 > 1/3 = user_total_rate`. -/
def exRegOverQuota : RegistryState :=
  { task_signatures := fun _ => [],
    running_task_user_count := fun k u =>
      if k = TTaskType.PUSH ∧ u = "a" then 1 else 0,
    total_task_user_count := fun k u =>
      if k = TTaskType.PUSH ∧ u = "a" then 1 else 0,
    total_task_count := fun k => if k = TTaskType.PUSH then 3 else 0 }

/-- Trace for the C8 counterexample: submit one DELETE task, select it
with a NORMAL push-callback worker, complete it. All pools then are
drained. -/
def exDeleteTrace : List Event :=
  [Event.submit exDelete,
   Event.dequeuePush TTaskType.DELETE 4 TPriority.NORMAL,
   Event.complete 0]

/-- Trace for witnesses: submit one PUSH task, select it, complete it. -/
def exPushTrace : List Event :=
  [Event.submit exPushA,
   Event.dequeuePush TTaskType.PUSH 4 TPriority.NORMAL,
   Event.complete 0]


/-! ## Arithmetic and list helpers -/

theorem u32inc_mod (n : Nat) : u32inc (n % U32_MOD) = (n + 1) % U32_MOD := by
  rw [u32inc, Nat.mod_add_mod]

theorem u32dec_mod_succ (n : Nat) : u32dec ((n + 1) % U32_MOD) = n % U32_MOD := by
  rw [u32dec, Nat.mod_add_mod]
  have h : n + 1 + (U32_MOD - 1) = n + U32_MOD := by
    show n + 1 + (4294967296 - 1) = n + 4294967296
    omega
  rw [h, Nat.add_mod_right]

theorem getD_mem_of_lt {α : Type} [Inhabited α] (l : List α) (i : Nat)
    (h : i < l.length) : l.getD i default ∈ l := by
  induction l generalizing i with
  | nil => simp at h
  | cons a t ih =>
    cases i with
    | zero => exact List.mem_cons_self a t
    | succ j =>
      simp only [List.getD_cons_succ]
      exact List.mem_cons_of_mem a (ih j (by simpa using h))

theorem getD_cons_eraseIdx_perm {α : Type} [Inhabited α] (l : List α) (i : Nat)
    (h : i < l.length) : l.Perm (l.getD i default :: l.eraseIdx i) := by
  induction l generalizing i with
  | nil => simp at h
  | cons a t ih =>
    cases i with
    | zero => exact List.Perm.refl _
    | succ j =>
      have hj : j < t.length := by simpa using h
      have h1 : (a :: t).Perm (a :: (t.getD j default :: t.eraseIdx j)) :=
        List.Perm.cons a (ih j hj)
      have h2 : (a :: (t.getD j default :: t.eraseIdx j)).Perm
          (t.getD j default :: a :: t.eraseIdx j) := List.Perm.swap _ _ _
      exact h1.trans h2

/-! ## firstIdx and effUserList -/

theorem firstIdx_none_iff {α : Type} (p : α → Bool) (l : List α) :
    firstIdx p l = none ↔ ∀ a ∈ l, p a = false := by
  induction l with
  | nil => simp [firstIdx]
  | cons a t ih =>
    by_cases hp : p a = true
    · simp [firstIdx, hp]
    · have hpa : p a = false := by simpa using hp
      simp [firstIdx, hpa, ih]

theorem firstIdx_some_lt {α : Type} (p : α → Bool) (l : List α) (i : Nat)
    (h : firstIdx p l = some i) : i < l.length := by
  induction l generalizing i with
  | nil => simp [firstIdx] at h
  | cons a t ih =>
    simp only [firstIdx] at h
    split at h
    · injection h with h
      subst h
      simp
    · obtain ⟨j, hj, rfl⟩ := Option.map_eq_some'.mp h
      have := ih j hj
      simp only [List.length_cons]
      omega

theorem firstIdx_some_getD {α : Type} [Inhabited α] (p : α → Bool) (l : List α)
    (i : Nat) (h : firstIdx p l = some i) : p (l.getD i default) = true := by
  induction l generalizing i with
  | nil => simp [firstIdx] at h
  | cons a t ih =>
    simp only [firstIdx] at h
    split at h
    · injection h with h
      subst h
      simpa using ‹p a = true›
    · obtain ⟨j, hj, rfl⟩ := Option.map_eq_some'.mp h
      simpa [List.getD_cons_succ] using ih j hj

theorem firstIdx_some_earlier {α : Type} [Inhabited α] (p : α → Bool) (l : List α)
    (i : Nat) (h : firstIdx p l = some i) :
    ∀ j, j < i → p (l.getD j default) = false := by
  induction l generalizing i with
  | nil => simp [firstIdx] at h
  | cons a t ih =>
    simp only [firstIdx] at h
    split at h
    · injection h with h
      subst h
      omega
    · obtain ⟨j0, hj0, rfl⟩ := Option.map_eq_some'.mp h
      intro j hj
      cases j with
      | zero =>
        have : ¬ p a = true := by assumption
        simpa using this
      | succ j1 =>
        simp only [List.getD_cons_succ]
        exact ih j0 hj0 j1 (by omega)

theorem effUserList_length (ts : List TAgentTaskRequest) (u0 : String) :
    (effUserList ts u0).length = ts.length := by
  induction ts generalizing u0 with
  | nil => simp [effUserList]
  | cons t ts ih => simp [effUserList, ih]

theorem effUserList_getD_fst (ts : List TAgentTaskRequest) (u0 : String)
    (j : Nat) (h : j < ts.length) :
    ((effUserList ts u0).getD j default).1 = ts.getD j default := by
  induction ts generalizing u0 j with
  | nil => simp at h
  | cons t ts ih =>
    cases j with
    | zero => simp [effUserList, List.getD]
    | succ j1 =>
      simp only [effUserList, List.getD_cons_succ]
      exact ih _ j1 (by simpa using h)

theorem effUserList_getD_isset (ts : List TAgentTaskRequest) (u0 : String)
    (j : Nat) (h : j < ts.length) (hall : allIsset ts) :
    ((effUserList ts u0).getD j default).2 = (ts.getD j default).user := by
  induction ts generalizing u0 j with
  | nil => simp at h
  | cons t ts ih =>
    cases j with
    | zero =>
      have := hall t (List.mem_cons_self t ts)
      simp [effUserList, List.getD, this]
    | succ j1 =>
      simp only [effUserList, List.getD_cons_succ]
      exact ih _ j1 (by simpa using h)
        (fun x hx => hall x (List.mem_cons_of_mem t hx))

theorem firstIdx_effUserList (p : TAgentTaskRequest → Bool)
    (ts : List TAgentTaskRequest) (u0 : String) :
    firstIdx (fun q => p q.1) (effUserList ts u0) = firstIdx p ts := by
  induction ts generalizing u0 with
  | nil => simp [effUserList, firstIdx]
  | cons t ts ih =>
    by_cases hp : p t
    · simp [effUserList, firstIdx, hp]
    · simp [effUserList, firstIdx, hp, ih]


/-! ## Characterizing the selector scan -/

theorem get_next_task_loop_high (reg : RegistryState) (tc : Nat)
    (ts : List TAgentTaskRequest) (n : Nat) (u0 : String) (imp : List String) :
    get_next_task_loop reg tc TPriority.HIGH ts n u0 imp =
      (firstIdx (fun q => isHighTask q.1) (effUserList ts u0)).map
        (fun j => (n + j, ((effUserList ts u0).getD j default).2)) := by
  induction ts generalizing n u0 imp with
  | nil => simp [get_next_task_loop, effUserList, firstIdx]
  | cons t ts ih =>
    by_cases hH : isHighTask t = true
    · simp [get_next_task_loop, effUserList, firstIdx, hH]
    · have hH' : isHighTask t = false := by simpa using hH
      simp only [get_next_task_loop, effUserList, firstIdx, hH', if_neg, Bool.false_eq_true,
        not_false_iff, if_false]
      rw [ih]
      cases hF : firstIdx (fun q => isHighTask q.1)
          (effUserList ts (if t.isset_resource_info then t.user else u0)) with
      | none => simp
      | some j =>
        simp [List.getD_cons_succ]
        omega

theorem get_next_task_loop_normal (reg : RegistryState) (tc : Nat) (k : TTaskType)
    (ts : List TAgentTaskRequest) (n : Nat) (u0 : String) (imp : List String)
    (hk : ∀ t ∈ ts, t.task_type = k)
    (himp : ∀ u ∈ imp, eligible_user reg tc k u = false) :
    get_next_task_loop reg tc TPriority.NORMAL ts n u0 imp =
      (firstIdx (fun q => eligible_user reg tc q.1.task_type q.2) (effUserList ts u0)).map
        (fun j => (n + j, ((effUserList ts u0).getD j default).2)) := by
  induction ts generalizing n u0 imp with
  | nil => simp [get_next_task_loop, effUserList, firstIdx]
  | cons t ts ih =>
    have hkt : t.task_type = k := hk t (List.mem_cons_self t ts)
    have hkts : ∀ x ∈ ts, x.task_type = k := fun x hx => hk x (List.mem_cons_of_mem t hx)
    set u := if t.isset_resource_info then t.user else u0 with hu
    by_cases hmem : u ∈ imp
    · have helig : eligible_user reg tc t.task_type u = false := by
        rw [hkt]; exact himp u hmem
      simp only [get_next_task_loop, effUserList, firstIdx, ← hu, if_pos hmem, helig,
        Bool.false_eq_true, if_false]
      rw [ih _ _ _ hkts himp]
      cases hF : firstIdx (fun q => eligible_user reg tc q.1.task_type q.2)
          (effUserList ts u) with
      | none => simp
      | some j =>
        simp [List.getD_cons_succ]
        omega
    · by_cases helig : eligible_user reg tc t.task_type u = true
      · simp [get_next_task_loop, effUserList, firstIdx, ← hu, if_neg hmem, helig]
      · have helig' : eligible_user reg tc t.task_type u = false := by simpa using helig
        have himp' : ∀ v ∈ u :: imp, eligible_user reg tc k v = false := by
          intro v hv
          rcases List.mem_cons.mp hv with rfl | hv
          · rw [← hkt]; exact helig'
          · exact himp v hv
        simp only [get_next_task_loop, effUserList, firstIdx, ← hu, if_neg hmem, helig',
          Bool.false_eq_true, if_false]
        rw [ih _ _ _ hkts himp']
        cases hF : firstIdx (fun q => eligible_user reg tc q.1.task_type q.2)
            (effUserList ts u) with
        | none => simp
        | some j =>
          simp [List.getD_cons_succ]
          omega


theorem get_next_task_index_high_eq (tc : Nat) (tasks : List TAgentTaskRequest)
    (reg : RegistryState) :
    get_next_task_index tc tasks TPriority.HIGH reg =
      match firstIdx isHighTask tasks with
      | none => (-1, reg)
      | some i => ((i : Int), incRunning reg (tasks.getD i default).task_type
          (((effUserList tasks "").getD i default).2)) := by
  rw [get_next_task_index, get_next_task_loop_high,
    firstIdx_effUserList isHighTask tasks ""]
  cases h : firstIdx isHighTask tasks with
  | none => simp
  | some i => simp

theorem amendedNormalIdx_lt (tc : Nat) (tasks : List TAgentTaskRequest)
    (reg : RegistryState) (hne : tasks ≠ []) :
    amendedNormalIdx tc tasks reg < tasks.length := by
  rw [amendedNormalIdx]
  cases h : firstIdx (fun p => eligible_user reg tc p.1.task_type p.2)
      (effUserList tasks "") with
  | none =>
    simpa [Option.getD] using List.length_pos.mpr hne
  | some j =>
    have := firstIdx_some_lt _ _ _ h
    rw [effUserList_length] at this
    simpa [Option.getD] using this

theorem get_next_task_index_normal_eq (tc : Nat) (tasks : List TAgentTaskRequest)
    (reg : RegistryState) (k : TTaskType) (hne : tasks ≠ [])
    (hk : ∀ t ∈ tasks, t.task_type = k) :
    get_next_task_index tc tasks TPriority.NORMAL reg =
      ((amendedNormalIdx tc tasks reg : Int),
       incRunning reg (tasks.getD (amendedNormalIdx tc tasks reg) default).task_type
         (amendedNormalUser tc tasks reg)) := by
  rw [get_next_task_index,
    get_next_task_loop_normal reg tc k tasks 0 "" [] hk (by simp)]
  cases h : firstIdx (fun p => eligible_user reg tc p.1.task_type p.2)
      (effUserList tasks "") with
  | none =>
    simp [amendedNormalIdx, amendedNormalUser, h, ownUser]
  | some j =>
    simp [amendedNormalIdx, amendedNormalUser, h]

theorem push_worker_select_spec (tc : Nat) (q : List TAgentTaskRequest)
    (prio : TPriority) (reg : RegistryState) (k : TTaskType) (hne : q ≠ [])
    (hk : ∀ t ∈ q, t.task_type = k) :
    push_worker_select tc q prio reg = (none, q, reg) ∨
    ∃ i u, i < q.length ∧
      push_worker_select tc q prio reg =
        (some (q.getD i default), q.eraseIdx i,
          incRunning reg (q.getD i default).task_type u) ∧
      (allIsset q → u = (q.getD i default).user) := by
  cases prio with
  | HIGH =>
    rw [push_worker_select, get_next_task_index_high_eq]
    cases h : firstIdx isHighTask q with
    | none => left; simp
    | some i =>
      right
      have hlt : i < q.length := firstIdx_some_lt _ _ _ h
      refine ⟨i, ((effUserList q "").getD i default).2, hlt, ?_, ?_⟩
      · simp
      · intro hall
        exact effUserList_getD_isset q "" i hlt hall
  | NORMAL =>
    rw [push_worker_select, get_next_task_index_normal_eq tc q reg k hne hk]
    right
    have hlt := amendedNormalIdx_lt tc q reg hne
    refine ⟨amendedNormalIdx tc q reg, amendedNormalUser tc q reg, hlt, ?_, ?_⟩
    · simp
    · intro hall
      rw [amendedNormalUser]
      cases h : firstIdx (fun p => eligible_user reg tc p.1.task_type p.2)
          (effUserList q "") with
      | none =>
        have h0 : (0 : Nat) < q.length := List.length_pos.mpr hne
        have hidx : amendedNormalIdx tc q reg = 0 := by
          rw [amendedNormalIdx, h]
          rfl
        rw [hidx, ownUser]
        have hset : (q.getD 0 default).isset_resource_info = true :=
          hall _ (getD_mem_of_lt q 0 h0)
        rw [if_pos hset]
      | some j =>
        have hj : j < q.length := by
          have := firstIdx_some_lt _ _ _ h
          rwa [effUserList_length] at this
        have hidx : amendedNormalIdx tc q reg = j := by
          rw [amendedNormalIdx, h]
          rfl
        rw [hidx]
        exact effUserList_getD_isset q "" j hj hall


/-! ## C3 and C4: the fair-share selector -/

/-- C3: for every queue state, a HIGH-priority invocation of
`_get_next_task_index` either finds no queued task with priority HIGH and
returns `-1`, leaving the registry counters untouched and (via the caller)
the queue undequeued — or it returns the smallest index `i` such that
`queue[i]` has priority HIGH; in particular a HIGH worker never selects a
task that is not HIGH, however many NORMAL tasks are queued. -/
theorem c3_high_priority_selector (tc : Nat) (tasks : List TAgentTaskRequest)
    (reg : RegistryState) :
    (get_next_task_index tc tasks TPriority.HIGH reg = (-1, reg) ∧
      push_worker_select tc tasks TPriority.HIGH reg = (none, tasks, reg) ∧
      ∀ t ∈ tasks, isHighTask t = false) ∨
    (∃ i : Nat, i < tasks.length ∧
      (get_next_task_index tc tasks TPriority.HIGH reg).1 = (i : Int) ∧
      isHighTask (tasks.getD i default) = true ∧
      ∀ j, j < i → isHighTask (tasks.getD j default) = false) := by
  cases h : firstIdx isHighTask tasks with
  | none =>
    left
    have hidx : get_next_task_index tc tasks TPriority.HIGH reg = (-1, reg) := by
      rw [get_next_task_index_high_eq, h]
    refine ⟨hidx, ?_, (firstIdx_none_iff _ _).mp h⟩
    rw [push_worker_select, hidx]
    norm_num
  | some i =>
    right
    refine ⟨i, firstIdx_some_lt _ _ _ h, ?_, firstIdx_some_getD _ _ _ h,
      firstIdx_some_earlier _ _ _ h⟩
    rw [get_next_task_index_high_eq, h]

/-- C4 counterexample: the claim reads each queued task's OWN user, but
the selector's `user` local is only refreshed when a task carries
`resource_info`, so a task without it inherits the previous task's user.
Queue: `exPushA` (user `"a"`, over quota) then `exPushNoInfo` (no
`resource_info`). Read as the claim states it, index 1's user is
anonymous (`""`, `running == 0`, eligible), so the claimed result is 1;
the code instead carries `"a"` into index 1, skips it as improper, and
falls back to index 0. -/
theorem c4_counterexample :
    (get_next_task_index 4 [exPushA, exPushNoInfo] TPriority.NORMAL
        exRegOverQuota).1 = 0 ∧
    claimNormalIdx 4 [exPushA, exPushNoInfo] exRegOverQuota = 1 ∧
    (get_next_task_index 4 [exPushA, exPushNoInfo] TPriority.NORMAL
        exRegOverQuota).1 ≠
      (claimNormalIdx 4 [exPushA, exPushNoInfo] exRegOverQuota : Int) := by
  have ha : eligible_user exRegOverQuota 4 TTaskType.PUSH "a" = false := by
    rw [eligible_user, user_running_rate, user_total_rate]
    norm_num [exRegOverQuota]
  have hb : eligible_user exRegOverQuota 4 TTaskType.PUSH "" = true := by
    rw [eligible_user]
    norm_num [exRegOverQuota]
    exact Or.inl (by decide)
  have h1 : (get_next_task_index 4 [exPushA, exPushNoInfo] TPriority.NORMAL
      exRegOverQuota).1 = 0 := by
    simp [get_next_task_index, get_next_task_loop, exPushA, exPushNoInfo, ha, hb]
  have h2 : claimNormalIdx 4 [exPushA, exPushNoInfo] exRegOverQuota = 1 := by
    simp [claimNormalIdx, claim_normal_scan, ownUser, exPushA, exPushNoInfo, ha, hb]
  exact ⟨h1, h2, by rw [h1, h2]; decide⟩

/-- C4 (amended): on a non-empty single-kind queue, the NORMAL-priority
selector returns the first index whose EFFECTIVE user (the task's own user
when `resource_info` is set, otherwise the user carried over from the last
task that had one, initially `""`) passes the eligibility test, falling
back to index 0 unconditionally when no index qualifies; the returned
index is always valid (never `-1`), and `running_task_user_count` for the
charged user is incremented before returning. -/
theorem c4_normal_selector (tc : Nat) (k : TTaskType)
    (tasks : List TAgentTaskRequest) (reg : RegistryState) (hne : tasks ≠ [])
    (hk : ∀ t ∈ tasks, t.task_type = k) :
    (get_next_task_index tc tasks TPriority.NORMAL reg).1 =
      (amendedNormalIdx tc tasks reg : Int) ∧
    amendedNormalIdx tc tasks reg < tasks.length ∧
    (get_next_task_index tc tasks TPriority.NORMAL reg).2 =
      incRunning reg ((tasks.getD (amendedNormalIdx tc tasks reg) default).task_type)
        (amendedNormalUser tc tasks reg) ∧
    (get_next_task_index tc tasks TPriority.NORMAL reg).1 ≠ -1 := by
  have h := get_next_task_index_normal_eq tc tasks reg k hne hk
  refine ⟨by rw [h], amendedNormalIdx_lt tc tasks reg hne, by rw [h], ?_⟩
  rw [h]
  omega

/-- C4 witness: the amended selector theorem applied to the one-task queue
`[exPushA]` with an empty registry. -/
theorem c4_witness :
    (get_next_task_index 1 [exPushA] TPriority.NORMAL initRegistry).1 =
      (amendedNormalIdx 1 [exPushA] initRegistry : Int) ∧
    amendedNormalIdx 1 [exPushA] initRegistry <
      ([exPushA] : List TAgentTaskRequest).length ∧
    (get_next_task_index 1 [exPushA] TPriority.NORMAL initRegistry).2 =
      incRunning initRegistry
        ((([exPushA] : List TAgentTaskRequest).getD
          (amendedNormalIdx 1 [exPushA] initRegistry) default).task_type)
        (amendedNormalUser 1 [exPushA] initRegistry) ∧
    (get_next_task_index 1 [exPushA] TPriority.NORMAL initRegistry).1 ≠ -1 :=
  c4_normal_selector 1 TTaskType.PUSH [exPushA] initRegistry (by simp)
    (by intro t ht; rw [List.mem_singleton] at ht; subst ht; rfl)


/-! ## C2: duplicate submission -/

/-- C2: a submission whose `(kind, signature)` is still live is rejected
with no side effects at all — `submit_task` returns the dispatcher state
unchanged: live sets, `total_task_user_count`, `total_task_count`,
`running_task_user_count` and every pool queue are exactly as before, so
no second admission, execution or finish RPC can occur for the pair. -/
theorem c2_duplicate_submission (s : SysState) (task : TAgentTaskRequest)
    (h : task.signature ∈ s.reg.task_signatures task.task_type) :
    submit_task s task = s := by
  simp [submit_task, record_task_info, h]

/-- C2 witness: submitting `exPushA` twice — the second submission leaves
the state of the first untouched. -/
theorem c2_witness :
    submit_task (run [Event.submit exPushA]) exPushA = run [Event.submit exPushA] :=
  c2_duplicate_submission (run [Event.submit exPushA]) exPushA (by decide)

/-! ## C10: release for non-PUSH kinds -/

/-- C10: for a kind other than `PUSH`, `_remove_task_info` only erases the
signature from that kind's live set; whatever user string is passed, the
running and total counters and every other kind's live set are unchanged. -/
theorem c10_remove_non_push (reg : RegistryState) (k : TTaskType) (sig : Int)
    (user : String) (hk : k ≠ TTaskType.PUSH) :
    remove_task_info reg k sig user =
      { reg with
        task_signatures := Function.update reg.task_signatures k
          ((reg.task_signatures k).filter (fun s => decide (s ≠ sig))) } ∧
    (remove_task_info reg k sig user).running_task_user_count =
      reg.running_task_user_count ∧
    (remove_task_info reg k sig user).total_task_user_count =
      reg.total_task_user_count ∧
    (remove_task_info reg k sig user).total_task_count = reg.total_task_count ∧
    ∀ k2, k2 ≠ k → (remove_task_info reg k sig user).task_signatures k2 =
      reg.task_signatures k2 := by
  have hr : remove_task_info reg k sig user =
      { reg with
        task_signatures := Function.update reg.task_signatures k
          ((reg.task_signatures k).filter (fun s => decide (s ≠ sig))) } := by
    simp [remove_task_info, hk]
  refine ⟨hr, by rw [hr], by rw [hr], by rw [hr], ?_⟩
  intro k2 hk2
  rw [hr]
  exact Function.update_noteq hk2 _ _

/-- C10 witness: releasing a CLONE signature from the initial registry. -/
theorem c10_witness :
    remove_task_info initRegistry TTaskType.CLONE 5 "x" =
      { initRegistry with
        task_signatures :=
          Function.update initRegistry.task_signatures TTaskType.CLONE
            ((initRegistry.task_signatures TTaskType.CLONE).filter
              (fun s => decide (s ≠ 5))) } ∧
    (remove_task_info initRegistry TTaskType.CLONE 5 "x").running_task_user_count =
      initRegistry.running_task_user_count ∧
    (remove_task_info initRegistry TTaskType.CLONE 5 "x").total_task_user_count =
      initRegistry.total_task_user_count ∧
    (remove_task_info initRegistry TTaskType.CLONE 5 "x").total_task_count =
      initRegistry.total_task_count ∧
    ∀ k2, k2 ≠ TTaskType.CLONE →
      (remove_task_info initRegistry TTaskType.CLONE 5 "x").task_signatures k2 =
        initRegistry.task_signatures k2 :=
  c10_remove_non_push initRegistry TTaskType.CLONE 5 "x" (by decide)

/-! ## C9: PUSH already loaded -/

/-- C9: when the engine reports `DORIS_PUSH_HAD_LOADED`, the push callback
releases the signature through `_remove_task_info` and nothing else: no
finish request is built (no finish RPC can be issued), and the report
version is untouched. -/
theorem c9_push_already_loaded (infos : List Int) (pt : TPushType) (v : Int)
    (task : TAgentTaskRequest) (user : String) (rv : Nat) (reg : RegistryState) :
    push_worker_complete AgentStatus.DORIS_PUSH_HAD_LOADED infos pt v task user rv reg =
      (none, rv, remove_task_info reg task.task_type task.signature user) := by
  rfl

/-! ## C6: finish-RPC retry -/

theorem finish_task_from_le (client : Nat → AgentStatus × TStatusCode) :
    ∀ fuel calls, finish_task_from client calls fuel ≤ calls + fuel := by
  intro fuel
  induction fuel with
  | zero => intro calls; simp [finish_task_from]
  | succ f ih =>
    intro calls
    rw [finish_task_from]
    split
    · omega
    · have := ih (calls + 1)
      omega

theorem finish_task_from_all_fail (client : Nat → AgentStatus × TStatusCode) :
    ∀ fuel calls,
      (∀ j, calls ≤ j → j < calls + fuel → (client j).1 ≠ AgentStatus.DORIS_SUCCESS) →
      finish_task_from client calls fuel = calls + fuel := by
  intro fuel
  induction fuel with
  | zero => intro calls _; simp [finish_task_from]
  | succ f ih =>
    intro calls hfail
    rw [finish_task_from]
    split
    · exact absurd (by assumption) (hfail calls (Nat.le_refl _) (by omega))
    · rw [ih (calls + 1) (fun j h1 h2 => hfail j (by omega) (by omega))]
      omega

theorem finish_task_from_first_success (client : Nat → AgentStatus × TStatusCode) :
    ∀ fuel calls k, calls ≤ k → k < calls + fuel →
      (∀ j, calls ≤ j → j < k → (client j).1 ≠ AgentStatus.DORIS_SUCCESS) →
      (client k).1 = AgentStatus.DORIS_SUCCESS →
      finish_task_from client calls fuel = k + 1 := by
  intro fuel
  induction fuel with
  | zero => intro calls k h1 h2; omega
  | succ f ih =>
    intro calls k h1 h2 hbefore hk
    rw [finish_task_from]
    split
    · have : calls = k := by
        by_contra hne
        exact hbefore calls (Nat.le_refl _) (by omega) (by assumption)
      rw [this]
    · have hkne : calls ≠ k := by
        intro he
        subst he
        exact absurd hk (by assumption)
      exact ih (calls + 1) k (by omega) (by omega)
        (fun j ha hb => hbefore j (by omega) hb) hk

theorem finish_task_from_transport (c1 c2 : Nat → AgentStatus × TStatusCode)
    (h : ∀ n, (c1 n).1 = (c2 n).1) :
    ∀ fuel calls, finish_task_from c1 calls fuel = finish_task_from c2 calls fuel := by
  intro fuel
  induction fuel with
  | zero => intro calls; rfl
  | succ f ih =>
    intro calls
    rw [finish_task_from, finish_task_from, h calls]
    split
    · rfl
    · exact ih (calls + 1)

/-- C6: `_finish_task` attempts the finish RPC at most
`TASK_FINISH_MAX_RETRY = 3` times; the first transport success stops the
loop (an attempt after `k` transport failures is attempt `k + 1`); three
consecutive transport failures exhaust the loop with exactly 3 attempts
and no fourth; the attempt count depends only on the transport statuses,
never on the master-side status codes; and whatever the client did, the
callback then performs exactly the one registry release
`_remove_task_info`. -/
theorem c6_finish_retry (client : Nat → AgentStatus × TStatusCode) :
    finish_task_calls client ≤ TASK_FINISH_MAX_RETRY ∧
    (∀ k, k < TASK_FINISH_MAX_RETRY →
      (∀ j, j < k → (client j).1 ≠ AgentStatus.DORIS_SUCCESS) →
      (client k).1 = AgentStatus.DORIS_SUCCESS →
      finish_task_calls client = k + 1) ∧
    ((∀ j, j < TASK_FINISH_MAX_RETRY → (client j).1 ≠ AgentStatus.DORIS_SUCCESS) →
      finish_task_calls client = TASK_FINISH_MAX_RETRY) ∧
    (∀ client2 : Nat → AgentStatus × TStatusCode,
      (∀ n, (client n).1 = (client2 n).1) →
      finish_task_calls client = finish_task_calls client2) ∧
    (∀ reg task user, (finish_and_release client reg task user).2 =
      remove_task_info reg task.task_type task.signature user) := by
  refine ⟨?_, ?_, ?_, ?_, ?_⟩
  · simpa [finish_task_calls] using finish_task_from_le client TASK_FINISH_MAX_RETRY 0
  · intro k hk hbefore hk2
    rw [finish_task_calls]
    exact finish_task_from_first_success client TASK_FINISH_MAX_RETRY 0 k (Nat.zero_le _)
      (by omega) (fun j _ hj => hbefore j hj) hk2
  · intro hfail
    rw [finish_task_calls]
    simpa using finish_task_from_all_fail client TASK_FINISH_MAX_RETRY 0
      (fun j _ hj => hfail j (by omega))
  · intro client2 h
    rw [finish_task_calls, finish_task_calls]
    exact finish_task_from_transport client client2 h TASK_FINISH_MAX_RETRY 0
  · intro reg task user
    rfl


/-! ## C5: publish-version retry -/

/-- C5: the engine `publish_version` call is attempted at most
`PUBLISH_VERSION_MAX_RETRY = 3` times, sleeping one second after each
failed attempt; the error-tablet list is cleared before each attempt, so
the list in flight is always the latest attempt's. If attempt `k`
(0-based, after `k` failures) succeeds, the finish request carries `OK`
with `error_tablet_ids` unset after `k + 1` attempts and `k` sleeps; if
all three attempts fail, it carries `RUNTIME_ERROR` with the third
attempt's error tablet ids. The report version is untouched. -/
theorem c5_publish_retry (engine : Nat → OLAPStatus × List Int) (rv : Nat)
    (reg : RegistryState) (sig : Int) :
    (publish_version_step engine rv reg sig).attempts ≤ PUBLISH_VERSION_MAX_RETRY ∧
    (∀ k, k < PUBLISH_VERSION_MAX_RETRY →
      (∀ j, j < k → (engine j).1 ≠ OLAPStatus.OLAP_SUCCESS) →
      (engine k).1 = OLAPStatus.OLAP_SUCCESS →
      (publish_version_step engine rv reg sig).finish.status_code = TStatusCode.OK ∧
      (publish_version_step engine rv reg sig).finish.error_tablet_ids = none ∧
      (publish_version_step engine rv reg sig).attempts = k + 1 ∧
      (publish_version_step engine rv reg sig).sleeps = k) ∧
    ((∀ j, j < PUBLISH_VERSION_MAX_RETRY → (engine j).1 ≠ OLAPStatus.OLAP_SUCCESS) →
      (publish_version_step engine rv reg sig).finish.status_code =
        TStatusCode.RUNTIME_ERROR ∧
      (publish_version_step engine rv reg sig).finish.error_tablet_ids =
        some (engine 2).2 ∧
      (publish_version_step engine rv reg sig).attempts = PUBLISH_VERSION_MAX_RETRY ∧
      (publish_version_step engine rv reg sig).sleeps = PUBLISH_VERSION_MAX_RETRY) ∧
    (publish_version_step engine rv reg sig).report_version = rv := by
  by_cases h0 : (engine 0).1 = OLAPStatus.OLAP_SUCCESS
  · have hat : (publish_version_step engine rv reg sig).attempts = 1 := by
      simp [publish_version_step, publish_version_loop, PUBLISH_VERSION_MAX_RETRY, h0]
    have hsl : (publish_version_step engine rv reg sig).sleeps = 0 := by
      simp [publish_version_step, publish_version_loop, PUBLISH_VERSION_MAX_RETRY, h0]
    have hok : (publish_version_step engine rv reg sig).finish.status_code =
        TStatusCode.OK := by
      simp [publish_version_step, publish_version_loop, PUBLISH_VERSION_MAX_RETRY, h0]
    have hids : (publish_version_step engine rv reg sig).finish.error_tablet_ids =
        none := by
      simp [publish_version_step, publish_version_loop, PUBLISH_VERSION_MAX_RETRY, h0]
    refine ⟨by rw [hat]; decide, ?_, ?_, rfl⟩
    · intro k hk hbefore hksucc
      have hk0 : k = 0 := by
        by_contra hne
        exact hbefore 0 (by omega) h0
      subst hk0
      exact ⟨hok, hids, by rw [hat], by rw [hsl]⟩
    · intro hfail
      exact absurd h0 (hfail 0 (by decide))
  · by_cases h1 : (engine 1).1 = OLAPStatus.OLAP_SUCCESS
    · have hat : (publish_version_step engine rv reg sig).attempts = 2 := by
        simp [publish_version_step, publish_version_loop, PUBLISH_VERSION_MAX_RETRY, h0, h1]
      have hsl : (publish_version_step engine rv reg sig).sleeps = 1 := by
        simp [publish_version_step, publish_version_loop, PUBLISH_VERSION_MAX_RETRY, h0, h1]
      have hok : (publish_version_step engine rv reg sig).finish.status_code =
          TStatusCode.OK := by
        simp [publish_version_step, publish_version_loop, PUBLISH_VERSION_MAX_RETRY, h0, h1]
      have hids : (publish_version_step engine rv reg sig).finish.error_tablet_ids =
          none := by
        simp [publish_version_step, publish_version_loop, PUBLISH_VERSION_MAX_RETRY, h0, h1]
      refine ⟨by rw [hat]; decide, ?_, ?_, rfl⟩
      · intro k hk hbefore hksucc
        have hk1 : k = 1 := by
          obtain rfl | rfl | rfl : k = 0 ∨ k = 1 ∨ k = 2 := by
            simp only [PUBLISH_VERSION_MAX_RETRY] at hk
            omega
          · exact absurd hksucc h0
          · rfl
          · exact absurd (hbefore 1 (by omega)) (by simp [h1])
        subst hk1
        exact ⟨hok, hids, by rw [hat], by rw [hsl]⟩
      · intro hfail
        exact absurd h1 (hfail 1 (by decide))
    · by_cases h2 : (engine 2).1 = OLAPStatus.OLAP_SUCCESS
      · have hat : (publish_version_step engine rv reg sig).attempts = 3 := by
          simp [publish_version_step, publish_version_loop, PUBLISH_VERSION_MAX_RETRY,
            h0, h1, h2]
        have hsl : (publish_version_step engine rv reg sig).sleeps = 2 := by
          simp [publish_version_step, publish_version_loop, PUBLISH_VERSION_MAX_RETRY,
            h0, h1, h2]
        have hok : (publish_version_step engine rv reg sig).finish.status_code =
            TStatusCode.OK := by
          simp [publish_version_step, publish_version_loop, PUBLISH_VERSION_MAX_RETRY,
            h0, h1, h2]
        have hids : (publish_version_step engine rv reg sig).finish.error_tablet_ids =
            none := by
          simp [publish_version_step, publish_version_loop, PUBLISH_VERSION_MAX_RETRY,
            h0, h1, h2]
        refine ⟨by rw [hat]; decide, ?_, ?_, rfl⟩
        · intro k hk hbefore hksucc
          have hk2 : k = 2 := by
            obtain rfl | rfl | rfl : k = 0 ∨ k = 1 ∨ k = 2 := by
              simp only [PUBLISH_VERSION_MAX_RETRY] at hk
              omega
            · exact absurd hksucc h0
            · exact absurd hksucc h1
            · rfl
          subst hk2
          exact ⟨hok, hids, by rw [hat], by rw [hsl]⟩
        · intro hfail
          exact absurd h2 (hfail 2 (by decide))
      · have hat : (publish_version_step engine rv reg sig).attempts = 3 := by
          simp [publish_version_step, publish_version_loop, PUBLISH_VERSION_MAX_RETRY,
            h0, h1, h2]
        have hsl : (publish_version_step engine rv reg sig).sleeps = 3 := by
          simp [publish_version_step, publish_version_loop, PUBLISH_VERSION_MAX_RETRY,
            h0, h1, h2]
        have herr : (publish_version_step engine rv reg sig).finish.status_code =
            TStatusCode.RUNTIME_ERROR := by
          simp [publish_version_step, publish_version_loop, PUBLISH_VERSION_MAX_RETRY,
            h0, h1, h2]
        have hids : (publish_version_step engine rv reg sig).finish.error_tablet_ids =
            some (engine 2).2 := by
          simp [publish_version_step, publish_version_loop, PUBLISH_VERSION_MAX_RETRY,
            h0, h1, h2]
        refine ⟨by rw [hat]; decide, ?_, ?_, rfl⟩
        · intro k hk hbefore hksucc
          obtain rfl | rfl | rfl : k = 0 ∨ k = 1 ∨ k = 2 := by
            simp only [PUBLISH_VERSION_MAX_RETRY] at hk
            omega
          · exact absurd hksucc h0
          · exact absurd hksucc h1
          · exact absurd hksucc h2
        · intro hfail
          exact ⟨herr, hids, by rw [hat]; rfl, by rw [hsl]; rfl⟩

/-! ## C1: the report-version counter -/

/-- C1 counterexample: a tablet-state report send does NOT increment the
report-version counter — the callback attaches the current value
(`request.__set_report_version(_s_report_version)`, line 1218) and leaves
the counter where it was, while the claim requires an increment on every
tablet-state report send. -/
theorem c1_counterexample :
    (report_tablet_step 5 true).1 = some 5 ∧
    (report_tablet_step 5 true).2 = 5 ∧
    (5 : Nat) ≠ u64inc 5 := by
  refine ⟨rfl, rfl, ?_⟩
  decide

/-- C1 (amended): the report-version counter is incremented exactly on a
successful CREATE_TABLET engine call, a successful ALTER_TABLET engine
call (SCHEMA_CHANGE or ROLLUP — even if the subsequent tablet-info lookup
fails), and a successful PUSH execution; the tablet-state report attaches
the CURRENT counter value to its send without modifying the counter; and
every other callback of the dispatcher (drop, publish-version,
clear-alter, clear-transaction, clone, storage-migrate,
check-consistency, upload, download, make/release snapshot, move,
recover, task report, disk report) leaves the counter unchanged. -/
theorem c1_report_version (rv : Nat) :
    (∀ st reg sig, (create_tablet_step st rv reg sig).2.1 =
      (if st = OLAPStatus.OLAP_SUCCESS then u64inc rv else rv)) ∧
    (∀ kt st ok tid reg sig, (alter_tablet_step kt st ok tid rv reg sig).2.1 =
      (if (kt = TTaskType.ROLLUP ∨ kt = TTaskType.SCHEMA_CHANGE) ∧
          st = OLAPStatus.OLAP_SUCCESS
       then u64inc rv else rv)) ∧
    (∀ st infos pt v task user reg,
      (push_worker_complete st infos pt v task user rv reg).2.1 =
        (if st = AgentStatus.DORIS_SUCCESS then u64inc rv else rv)) ∧
    (∀ collect_ok, (report_tablet_step rv collect_ok).2 = rv ∧
      (report_tablet_step rv collect_ok).1 =
        (if collect_ok then some rv else none)) ∧
    (∀ st reg sig, (drop_tablet_step st rv reg sig).2.1 = rv) ∧
    (∀ engine reg sig, (publish_version_step engine rv reg sig).report_version = rv) ∧
    (∀ st reg sig, (clear_alter_task_step st rv reg sig).2.1 = rv) ∧
    (∀ reg sig, (clear_transaction_task_step rv reg sig).2.1 = rv) ∧
    (∀ st infos reg sig, (clone_step st infos rv reg sig).2.1 = rv) ∧
    (∀ st reg sig, (storage_medium_migrate_step st rv reg sig).2.1 = rv) ∧
    (∀ st v reg sig, (check_consistency_step st v rv reg sig).2.1 = rv) ∧
    (∀ ok reg sig, (upload_step ok rv reg sig).2.1 = rv) ∧
    (∀ ok reg sig, (download_step ok rv reg sig).2.1 = rv) ∧
    (∀ st ls ok reg sig, (make_snapshot_step st ls ok rv reg sig).2.1 = rv) ∧
    (∀ st reg sig, (release_snapshot_step st rv reg sig).2.1 = rv) ∧
    (∀ st reg sig, (move_dir_step st rv reg sig).2.1 = rv) ∧
    (∀ st reg sig, (recover_tablet_step st rv reg sig).2.1 = rv) ∧
    (∀ reg, (report_task_step reg rv).2 = rv) ∧
    report_disk_state_step rv = rv := by
  refine ⟨?_, ?_, ?_, ?_, ?_, ?_, ?_, ?_, ?_, ?_, ?_, ?_, ?_, ?_, ?_, ?_, ?_, ?_, rfl⟩
  · intro st reg sig
    cases st <;> rfl
  · intro kt st ok tid reg sig
    cases kt <;> cases st <;> rfl
  · intro st infos pt v task user reg
    cases st <;> rfl
  · intro collect_ok
    cases collect_ok <;> exact ⟨rfl, rfl⟩
  · intro st reg sig
    rfl
  · intro engine reg sig
    rfl
  · intro st reg sig
    rfl
  · intro reg sig
    rfl
  · intro st infos reg sig
    rfl
  · intro st reg sig
    rfl
  · intro st v reg sig
    rfl
  · intro ok reg sig
    rfl
  · intro ok reg sig
    rfl
  · intro st ls ok reg sig
    rfl
  · intro st reg sig
    rfl
  · intro st reg sig
    rfl
  · intro st reg sig
    rfl
  · intro reg
    rfl


/-! ## Registry projection helpers -/

theorem updateCount_apply (f : TTaskType → String → Nat) (k : TTaskType)
    (u : String) (v : Nat) (k2 : TTaskType) (u2 : String) :
    updateCount f k u v k2 u2 =
      if k2 = k then (if u2 = u then v else f k u2) else f k2 u2 := by
  rw [updateCount, Function.update_apply]
  by_cases h : k2 = k
  · subst h
    simp [Function.update_apply]
  · simp [h]

theorem record_sigs_not_mem (reg : RegistryState) (kt : TTaskType) (sig : Int)
    (u : String) (h : sig ∉ reg.task_signatures kt) :
    (record_task_info reg kt sig u).2.task_signatures =
      Function.update reg.task_signatures kt (reg.task_signatures kt ++ [sig]) := by
  by_cases hp : kt = TTaskType.PUSH
  · subst hp
    simp [record_task_info, h]
  · simp [record_task_info, h, hp]

theorem record_fst_not_mem (reg : RegistryState) (kt : TTaskType) (sig : Int)
    (u : String) (h : sig ∉ reg.task_signatures kt) :
    (record_task_info reg kt sig u).1 = true := by
  by_cases hp : kt = TTaskType.PUSH
  · subst hp
    simp [record_task_info, h]
  · simp [record_task_info, h, hp]

theorem record_running_eq (reg : RegistryState) (kt : TTaskType) (sig : Int)
    (u : String) :
    (record_task_info reg kt sig u).2.running_task_user_count =
      reg.running_task_user_count := by
  by_cases hm : sig ∈ reg.task_signatures kt
  · simp [record_task_info, hm]
  · by_cases hp : kt = TTaskType.PUSH
    · subst hp
      simp [record_task_info, hm]
    · simp [record_task_info, hm, hp]

theorem record_total_user_push (reg : RegistryState) (sig : Int) (u : String)
    (h : sig ∉ reg.task_signatures TTaskType.PUSH) :
    (record_task_info reg TTaskType.PUSH sig u).2.total_task_user_count =
      updateCount reg.total_task_user_count TTaskType.PUSH u
        (u32inc (reg.total_task_user_count TTaskType.PUSH u)) := by
  simp [record_task_info, h]

theorem record_total_kind_push (reg : RegistryState) (sig : Int) (u : String)
    (h : sig ∉ reg.task_signatures TTaskType.PUSH) :
    (record_task_info reg TTaskType.PUSH sig u).2.total_task_count =
      Function.update reg.total_task_count TTaskType.PUSH
        (u32inc (reg.total_task_count TTaskType.PUSH)) := by
  simp [record_task_info, h]

theorem record_totals_not_push (reg : RegistryState) (kt : TTaskType) (sig : Int)
    (u : String) (hp : kt ≠ TTaskType.PUSH) :
    (record_task_info reg kt sig u).2.total_task_user_count =
        reg.total_task_user_count ∧
    (record_task_info reg kt sig u).2.total_task_count = reg.total_task_count := by
  by_cases hm : sig ∈ reg.task_signatures kt
  · exact ⟨by simp [record_task_info, hm], by simp [record_task_info, hm]⟩
  · exact ⟨by simp [record_task_info, hm, hp], by simp [record_task_info, hm, hp]⟩

theorem remove_sigs_eq (reg : RegistryState) (kt : TTaskType) (sig : Int)
    (u : String) :
    (remove_task_info reg kt sig u).task_signatures =
      Function.update reg.task_signatures kt
        ((reg.task_signatures kt).filter (fun s => decide (s ≠ sig))) := by
  by_cases hp : kt = TTaskType.PUSH
  · subst hp
    simp [remove_task_info]
  · simp [remove_task_info, hp]

theorem remove_running_push (reg : RegistryState) (sig : Int) (u : String) :
    (remove_task_info reg TTaskType.PUSH sig u).running_task_user_count =
      updateCount reg.running_task_user_count TTaskType.PUSH u
        (u32dec (reg.running_task_user_count TTaskType.PUSH u)) := by
  simp [remove_task_info]

theorem remove_total_user_push (reg : RegistryState) (sig : Int) (u : String) :
    (remove_task_info reg TTaskType.PUSH sig u).total_task_user_count =
      updateCount reg.total_task_user_count TTaskType.PUSH u
        (u32dec (reg.total_task_user_count TTaskType.PUSH u)) := by
  simp [remove_task_info]

theorem remove_total_kind_push (reg : RegistryState) (sig : Int) (u : String) :
    (remove_task_info reg TTaskType.PUSH sig u).total_task_count =
      Function.update reg.total_task_count TTaskType.PUSH
        (u32dec (reg.total_task_count TTaskType.PUSH)) := by
  simp [remove_task_info]

theorem remove_counters_not_push (reg : RegistryState) (kt : TTaskType) (sig : Int)
    (u : String) (hp : kt ≠ TTaskType.PUSH) :
    (remove_task_info reg kt sig u).running_task_user_count =
        reg.running_task_user_count ∧
    (remove_task_info reg kt sig u).total_task_user_count =
        reg.total_task_user_count ∧
    (remove_task_info reg kt sig u).total_task_count = reg.total_task_count :=
  ⟨by simp [remove_task_info, hp], by simp [remove_task_info, hp],
   by simp [remove_task_info, hp]⟩

/-! ## Counting helpers -/

theorem countUser_cons (t : TAgentTaskRequest) (l : List TAgentTaskRequest)
    (u : String) :
    countUser (t :: l) u = countUser l u + (if ownUser t = u then 1 else 0) := by
  simp [countUser, List.countP_cons]

theorem countUser_perm {l1 l2 : List TAgentTaskRequest}
    (h : l1.Perm l2) (u : String) : countUser l1 u = countUser l2 u :=
  h.countP_eq _

/-! ## Transport of the core invariant along permutations -/

theorem sigNe_symmetric :
    Symmetric (fun a b : TAgentTaskRequest => a.signature ≠ b.signature) :=
  fun _ _ h => Ne.symm h

theorem invCore_of_perm (s s2 : SysState)
    (hsig : s2.reg.task_signatures = s.reg.task_signatures)
    (htu : s2.reg.total_task_user_count = s.reg.total_task_user_count)
    (htk : s2.reg.total_task_count = s.reg.total_task_count)
    (hqk : ∀ k, ∀ t ∈ s2.queues k, t.task_type = k)
    (hperm : ∀ k, (inflight s2 k).Perm (inflight s k))
    (h : InvCore s) : InvCore s2 := by
  refine ⟨hqk, ?_, ?_, ?_, ?_, ?_, ?_⟩
  · intro k
    exact (List.Perm.pairwise_iff (fun hxy => Ne.symm hxy) (hperm k)).mpr (h.nodup k)
  · intro k sig
    rw [hsig]
    refine (h.live k sig).trans ?_
    constructor
    · rintro ⟨t, ht, rfl⟩
      exact ⟨t, (hperm k).mem_iff.mpr ht, rfl⟩
    · rintro ⟨t, ht, rfl⟩
      exact ⟨t, (hperm k).mem_iff.mp ht, rfl⟩
  · intro u
    rw [htu, h.total_user u, countUser_perm (hperm TTaskType.PUSH) u]
  · rw [htk, h.total_kind, (hperm TTaskType.PUSH).length_eq]
  · intro k hk u
    rw [htu]
    exact h.total_user_other k hk u
  · intro k hk
    rw [htk]
    exact h.total_kind_other k hk


/-! ## Preservation of the core invariant -/

theorem invCore_submit (s : SysState) (t : TAgentTaskRequest) (h : InvCore s) :
    InvCore (submit_task s t) := by
  rcases t with ⟨kt, sig, iset, usr, ipr, pr⟩
  set t : TAgentTaskRequest := ⟨kt, sig, iset, usr, ipr, pr⟩ with hT
  by_cases hmem : sig ∈ s.reg.task_signatures kt
  · have hs : submit_task s t = s := by simp [submit_task, record_task_info, hmem]
    rw [hs]
    exact h
  · have hfst := record_fst_not_mem s.reg kt sig (ownUser t) hmem
    have hstep : submit_task s t =
        { reg := (record_task_info s.reg kt sig (ownUser t)).2,
          queues := Function.update s.queues kt (s.queues kt ++ [t]),
          running := s.running } := by
      simp only [submit_task]
      rw [hfst]
      simp
    rw [hstep]
    set s2 : SysState :=
      { reg := (record_task_info s.reg kt sig (ownUser t)).2,
        queues := Function.update s.queues kt (s.queues kt ++ [t]),
        running := s.running } with hS2
    have hq2 : ∀ k, s2.queues k =
        if k = kt then s.queues kt ++ [t] else s.queues k := by
      intro k
      show Function.update s.queues kt (s.queues kt ++ [t]) k = _
      rw [Function.update_apply]
    have hinf_same : (inflight s2 kt).Perm (t :: inflight s kt) := by
      show (Function.update s.queues kt (s.queues kt ++ [t]) kt ++ _).Perm _
      rw [Function.update_same, List.append_assoc]
      exact List.perm_middle
    have hinf_other : ∀ k, k ≠ kt → inflight s2 k = inflight s k := by
      intro k hk
      show Function.update s.queues kt (s.queues kt ++ [t]) k ++ _ = _
      rw [Function.update_noteq hk]
      rfl
    have hnotin : ∀ x ∈ inflight s kt, t.signature ≠ x.signature := by
      intro x hx hsig
      exact hmem ((h.live kt sig).mpr ⟨x, hx, hsig.symm⟩)
    refine ⟨?_, ?_, ?_, ?_, ?_, ?_, ?_⟩
    · intro k x hx
      rw [hq2 k] at hx
      by_cases hk : k = kt
      · rw [if_pos hk] at hx
        rcases List.mem_append.mp hx with hx | hx
        · rw [hk]
          exact h.queue_kind kt x hx
        · rw [List.mem_singleton.mp hx, hk]
      · rw [if_neg hk] at hx
        exact h.queue_kind k x hx
    · intro k
      by_cases hk : k = kt
      · subst hk
        exact (List.Perm.pairwise_iff (fun hxy => Ne.symm hxy) hinf_same).mpr
          (List.Pairwise.cons hnotin (h.nodup k))
      · rw [hinf_other k hk]
        exact h.nodup k
    · intro k sg
      show sg ∈ (record_task_info s.reg kt sig (ownUser t)).2.task_signatures k ↔ _
      rw [record_sigs_not_mem s.reg kt sig (ownUser t) hmem, Function.update_apply]
      by_cases hk : k = kt
      · subst hk
        rw [if_pos rfl]
        constructor
        · intro hin
          rcases List.mem_append.mp hin with hin | hin
          · obtain ⟨x, hx, hxs⟩ := (h.live k sg).mp hin
            exact ⟨x, hinf_same.mem_iff.mpr (List.mem_cons_of_mem t hx), hxs⟩
          · exact ⟨t, hinf_same.mem_iff.mpr (List.mem_cons_self t _),
              (List.mem_singleton.mp hin).symm⟩
        · rintro ⟨x, hx, rfl⟩
          rcases List.mem_cons.mp (hinf_same.mem_iff.mp hx) with heq | hx
          · rw [heq]
            exact List.mem_append.mpr (Or.inr (List.mem_singleton.mpr rfl))
          · exact List.mem_append.mpr (Or.inl ((h.live k x.signature).mpr ⟨x, hx, rfl⟩))
      · rw [if_neg hk, hinf_other k hk]
        exact h.live k sg
    · intro u
      by_cases hp : kt = TTaskType.PUSH
      · subst hp
        show (record_task_info s.reg TTaskType.PUSH sig (ownUser t)).2.total_task_user_count
          TTaskType.PUSH u = _
        rw [record_total_user_push s.reg sig (ownUser t) hmem, updateCount_apply,
          if_pos rfl, countUser_perm hinf_same u, countUser_cons]
        by_cases hu : u = ownUser t
        · subst hu
          rw [if_pos rfl, if_pos rfl, h.total_user (ownUser t), u32inc_mod]
        · rw [if_neg hu, if_neg (fun he => hu he.symm), Nat.add_zero, h.total_user u]
      · show (record_task_info s.reg kt sig (ownUser t)).2.total_task_user_count
          TTaskType.PUSH u = _
        rw [(record_totals_not_push s.reg kt sig (ownUser t) hp).1,
          hinf_other TTaskType.PUSH (fun he => hp he.symm)]
        exact h.total_user u
    · by_cases hp : kt = TTaskType.PUSH
      · subst hp
        show (record_task_info s.reg TTaskType.PUSH sig (ownUser t)).2.total_task_count
          TTaskType.PUSH = _
        rw [record_total_kind_push s.reg sig (ownUser t) hmem, Function.update_same,
          hinf_same.length_eq, List.length_cons, h.total_kind, u32inc_mod]
      · show (record_task_info s.reg kt sig (ownUser t)).2.total_task_count
          TTaskType.PUSH = _
        rw [(record_totals_not_push s.reg kt sig (ownUser t) hp).2,
          hinf_other TTaskType.PUSH (fun he => hp he.symm)]
        exact h.total_kind
    · intro k hk u
      by_cases hp : kt = TTaskType.PUSH
      · subst hp
        show (record_task_info s.reg TTaskType.PUSH sig (ownUser t)).2.total_task_user_count
          k u = _
        rw [record_total_user_push s.reg sig (ownUser t) hmem, updateCount_apply,
          if_neg hk]
        exact h.total_user_other k hk u
      · show (record_task_info s.reg kt sig (ownUser t)).2.total_task_user_count k u = _
        rw [(record_totals_not_push s.reg kt sig (ownUser t) hp).1]
        exact h.total_user_other k hk u
    · intro k hk
      by_cases hp : kt = TTaskType.PUSH
      · subst hp
        show (record_task_info s.reg TTaskType.PUSH sig (ownUser t)).2.total_task_count
          k = _
        rw [record_total_kind_push s.reg sig (ownUser t) hmem,
          Function.update_noteq hk]
        exact h.total_kind_other k hk
      · show (record_task_info s.reg kt sig (ownUser t)).2.total_task_count k = _
        rw [(record_totals_not_push s.reg kt sig (ownUser t) hp).2]
        exact h.total_kind_other k hk


theorem invCore_dequeueFifo (s : SysState) (k : TTaskType) (h : InvCore s) :
    InvCore (stepEvent s (Event.dequeueFifo k)) := by
  simp only [stepEvent]
  by_cases hcb : usesPushCallback k
  · rw [if_pos hcb]
    exact h
  · rw [if_neg hcb]
    cases hq : s.queues k with
    | nil => exact h
    | cons t rest =>
      have hkt : t.task_type = k :=
        h.queue_kind k t (by rw [hq]; exact List.mem_cons_self _ _)
      refine invCore_of_perm s _ rfl rfl rfl ?_ ?_ h
      · intro k2 x hx
        have hx2 : x ∈ Function.update s.queues k rest k2 := hx
        rw [Function.update_apply] at hx2
        by_cases hk2 : k2 = k
        · rw [if_pos hk2] at hx2
          refine h.queue_kind k2 x ?_
          rw [hk2, hq]
          exact List.mem_cons_of_mem t hx2
        · rw [if_neg hk2] at hx2
          exact h.queue_kind k2 x hx2
      · intro k2
        have hgoal : (Function.update s.queues k rest k2 ++
            (s.running ++ [t]).filter (fun x => decide (x.task_type = k2))).Perm
            (inflight s k2) := by
          rw [Function.update_apply, List.filter_append]
          by_cases hk2 : k2 = k
          · subst hk2
            rw [if_pos rfl]
            have hft : [t].filter (fun x => decide (x.task_type = k2)) = [t] := by
              simp [hkt]
            rw [hft, ← List.append_assoc]
            refine (List.perm_append_singleton t _).trans ?_
            rw [inflight, hq]
            exact List.Perm.refl _
          · rw [if_neg hk2]
            have hft : [t].filter (fun x => decide (x.task_type = k2)) = [] := by
              simp [hkt]
              exact fun he => hk2 he.symm
            rw [hft, List.append_nil]
            exact List.Perm.refl _
        exact hgoal

theorem invCore_dequeuePush (s : SysState) (k : TTaskType) (tc : Nat)
    (prio : TPriority) (h : InvCore s) :
    InvCore (stepEvent s (Event.dequeuePush k tc prio)) := by
  simp only [stepEvent]
  by_cases hcb : usesPushCallback k
  · rw [if_pos hcb]
    by_cases hqe : s.queues k = []
    · rw [if_pos hqe]
      exact h
    · rw [if_neg hqe]
      rcases push_worker_select_spec tc (s.queues k) prio s.reg k hqe (h.queue_kind k)
        with hsel | ⟨i, u, hi, hsel, hiso⟩
      · rw [hsel]
        exact h
      · rw [hsel]
        set chosen := (s.queues k).getD i default with hch
        have hchk : chosen.task_type = k :=
          h.queue_kind k chosen (getD_mem_of_lt _ i hi)
        have hqperm : (s.queues k).Perm (chosen :: (s.queues k).eraseIdx i) :=
          getD_cons_eraseIdx_perm _ i hi
        refine invCore_of_perm s _ rfl rfl rfl ?_ ?_ h
        · intro k2 x hx
          have hx2 : x ∈ Function.update s.queues k ((s.queues k).eraseIdx i) k2 := hx
          rw [Function.update_apply] at hx2
          by_cases hk2 : k2 = k
          · rw [if_pos hk2] at hx2
            refine h.queue_kind k2 x ?_
            rw [hk2]
            exact (List.eraseIdx_sublist (s.queues k) i).mem hx2
          · rw [if_neg hk2] at hx2
            exact h.queue_kind k2 x hx2
        · intro k2
          have hgoal : (Function.update s.queues k ((s.queues k).eraseIdx i) k2 ++
              (s.running ++ [chosen]).filter
                (fun x => decide (x.task_type = k2))).Perm (inflight s k2) := by
            rw [Function.update_apply, List.filter_append]
            by_cases hk2 : k2 = k
            · subst hk2
              rw [if_pos rfl]
              have hft : [chosen].filter (fun x => decide (x.task_type = k2)) =
                  [chosen] := by
                simp [hchk]
              rw [hft, ← List.append_assoc]
              refine (List.perm_append_singleton chosen _).trans ?_
              rw [inflight]
              exact (hqperm.append_right _).symm
            · rw [if_neg hk2]
              have hft : [chosen].filter (fun x => decide (x.task_type = k2)) = [] := by
                simp [hchk]
                exact fun he => hk2 he.symm
              rw [hft, List.append_nil]
              exact List.Perm.refl _
          exact hgoal
  · rw [if_neg hcb]
    exact h


theorem invCore_complete_aux (s : SysState) (t : TAgentTaskRequest) (uu : String)
    (er : List TAgentTaskRequest) (hperm : s.running.Perm (t :: er))
    (huu : t.task_type = TTaskType.PUSH → uu = ownUser t) (h : InvCore s) :
    InvCore { reg := remove_task_info s.reg t.task_type t.signature uu,
              queues := s.queues, running := er } := by
  have hfperm : ∀ k2, (s.running.filter (fun x => decide (x.task_type = k2))).Perm
      ((t :: er).filter (fun x => decide (x.task_type = k2))) :=
    fun k2 => hperm.filter _
  have hinf_kt : (inflight s t.task_type).Perm
      (t :: (s.queues t.task_type ++
        er.filter (fun x => decide (x.task_type = t.task_type)))) := by
    rw [inflight]
    have h2 : (t :: er).filter (fun x => decide (x.task_type = t.task_type)) =
        t :: er.filter (fun x => decide (x.task_type = t.task_type)) := by
      exact List.filter_cons_of_pos (by simp)
    refine (List.Perm.append_left (s.queues t.task_type)
      (h2 ▸ hfperm t.task_type)).trans ?_
    exact List.perm_middle
  have hinf_other : ∀ k2, k2 ≠ t.task_type → (inflight s k2).Perm
      (s.queues k2 ++ er.filter (fun x => decide (x.task_type = k2))) := by
    intro k2 hk2
    rw [inflight]
    have h2 : (t :: er).filter (fun x => decide (x.task_type = k2)) =
        er.filter (fun x => decide (x.task_type = k2)) := by
      refine List.filter_cons_of_neg ?_
      simp
      exact fun he => hk2 he.symm
    exact List.Perm.append_left _ (h2 ▸ hfperm k2)
  have hpw : List.Pairwise (fun a b : TAgentTaskRequest => a.signature ≠ b.signature)
      (t :: (s.queues t.task_type ++
        er.filter (fun x => decide (x.task_type = t.task_type)))) :=
    (List.Perm.pairwise_iff (fun hxy => Ne.symm hxy) hinf_kt).mp (h.nodup t.task_type)
  have hpw_head := (List.pairwise_cons.mp hpw).1
  have hpw_tail := (List.pairwise_cons.mp hpw).2
  refine ⟨?_, ?_, ?_, ?_, ?_, ?_, ?_⟩
  · exact h.queue_kind
  · intro k2
    show ((s.queues k2 ++ er.filter (fun x => decide (x.task_type = k2))).Pairwise
      fun a b => a.signature ≠ b.signature)
    by_cases hk2 : k2 = t.task_type
    · subst hk2
      exact hpw_tail
    · exact (List.Perm.pairwise_iff (fun hxy => Ne.symm hxy)
        (hinf_other k2 hk2)).mp (h.nodup k2)
  · intro k2 sg
    show sg ∈ (remove_task_info s.reg t.task_type t.signature uu).task_signatures k2 ↔
      ∃ x ∈ s.queues k2 ++ er.filter (fun y => decide (y.task_type = k2)),
        x.signature = sg
    rw [remove_sigs_eq, Function.update_apply]
    by_cases hk2 : k2 = t.task_type
    · subst hk2
      rw [if_pos rfl]
      constructor
      · intro hin
        rw [List.mem_filter] at hin
        obtain ⟨hin1, hin2⟩ := hin
        have hne : sg ≠ t.signature := of_decide_eq_true hin2
        obtain ⟨x, hx, rfl⟩ := (h.live t.task_type sg).mp hin1
        rcases List.mem_cons.mp (hinf_kt.mem_iff.mp hx) with heq | hx2
        · exact absurd (by rw [heq]) hne
        · exact ⟨x, hx2, rfl⟩
      · rintro ⟨x, hx, rfl⟩
        have hxin : x ∈ inflight s t.task_type :=
          hinf_kt.mem_iff.mpr (List.mem_cons_of_mem t hx)
        rw [List.mem_filter]
        refine ⟨(h.live t.task_type x.signature).mpr ⟨x, hxin, rfl⟩, ?_⟩
        exact decide_eq_true (fun he => hpw_head x hx he.symm)
    · rw [if_neg hk2]
      refine (h.live k2 sg).trans ?_
      constructor
      · rintro ⟨x, hx, rfl⟩
        exact ⟨x, (hinf_other k2 hk2).mem_iff.mp hx, rfl⟩
      · rintro ⟨x, hx, rfl⟩
        exact ⟨x, (hinf_other k2 hk2).mem_iff.mpr hx, rfl⟩
  · intro u2
    show (remove_task_info s.reg t.task_type t.signature uu).total_task_user_count
      TTaskType.PUSH u2 = countUser (s.queues TTaskType.PUSH ++
        er.filter (fun x => decide (x.task_type = TTaskType.PUSH))) u2 % U32_MOD
    by_cases hp : t.task_type = TTaskType.PUSH
    · have huP := huu hp
      have hinf_ktP : (inflight s TTaskType.PUSH).Perm
          (t :: (s.queues TTaskType.PUSH ++
            er.filter (fun x => decide (x.task_type = TTaskType.PUSH)))) := by
        rw [← hp]
        exact hinf_kt
      rw [hp, huP, remove_total_user_push, updateCount_apply, if_pos rfl]
      by_cases hu2 : u2 = ownUser t
      · subst hu2
        rw [if_pos rfl]
        have hcnt : countUser (inflight s TTaskType.PUSH) (ownUser t) =
            countUser (s.queues TTaskType.PUSH ++
              er.filter (fun x => decide (x.task_type = TTaskType.PUSH)))
              (ownUser t) + 1 := by
          rw [countUser_perm hinf_ktP, countUser_cons, if_pos rfl]
        rw [h.total_user (ownUser t), hcnt, u32dec_mod_succ]
      · rw [if_neg hu2, h.total_user u2, countUser_perm hinf_ktP u2,
          countUser_cons, if_neg (fun he => hu2 he.symm), Nat.add_zero]
    · rw [(remove_counters_not_push s.reg t.task_type t.signature uu hp).2.1,
        h.total_user u2,
        countUser_perm (hinf_other TTaskType.PUSH (fun he => hp he.symm)) u2]
  · show (remove_task_info s.reg t.task_type t.signature uu).total_task_count
      TTaskType.PUSH = (s.queues TTaskType.PUSH ++
        er.filter (fun x => decide (x.task_type = TTaskType.PUSH))).length % U32_MOD
    by_cases hp : t.task_type = TTaskType.PUSH
    · have hinf_ktP : (inflight s TTaskType.PUSH).Perm
          (t :: (s.queues TTaskType.PUSH ++
            er.filter (fun x => decide (x.task_type = TTaskType.PUSH)))) := by
        rw [← hp]
        exact hinf_kt
      rw [hp, remove_total_kind_push, Function.update_same]
      have hlen : (inflight s TTaskType.PUSH).length =
          (s.queues TTaskType.PUSH ++
            er.filter (fun x => decide (x.task_type = TTaskType.PUSH))).length + 1 := by
        rw [hinf_ktP.length_eq, List.length_cons]
      rw [h.total_kind, hlen, u32dec_mod_succ]
    · rw [(remove_counters_not_push s.reg t.task_type t.signature uu hp).2.2,
        h.total_kind,
        (hinf_other TTaskType.PUSH (fun he => hp he.symm)).length_eq]
  · intro k2 hk2 u2
    show (remove_task_info s.reg t.task_type t.signature uu).total_task_user_count
      k2 u2 = 0
    by_cases hp : t.task_type = TTaskType.PUSH
    · rw [hp, remove_total_user_push, updateCount_apply, if_neg hk2]
      exact h.total_user_other k2 hk2 u2
    · rw [(remove_counters_not_push s.reg t.task_type t.signature uu hp).2.1]
      exact h.total_user_other k2 hk2 u2
  · intro k2 hk2
    show (remove_task_info s.reg t.task_type t.signature uu).total_task_count k2 = 0
    by_cases hp : t.task_type = TTaskType.PUSH
    · rw [hp, remove_total_kind_push, Function.update_noteq hk2]
      exact h.total_kind_other k2 hk2
    · rw [(remove_counters_not_push s.reg t.task_type t.signature uu hp).2.2]
      exact h.total_kind_other k2 hk2

theorem invCore_complete (s : SysState) (n : Nat) (h : InvCore s) :
    InvCore (stepEvent s (Event.complete n)) := by
  simp only [stepEvent]
  by_cases hn : n < s.running.length
  · rw [if_pos hn]
    exact invCore_complete_aux s (s.running.getD n default) _ _
      (getD_cons_eraseIdx_perm _ n hn)
      (fun hp => by rw [hp]; simp [usesPushCallback]) h
  · rw [if_neg hn]
    exact h

theorem invCore_step (s : SysState) (e : Event) (h : InvCore s) :
    InvCore (stepEvent s e) := by
  cases e with
  | submit t => exact invCore_submit s t h
  | dequeueFifo k => exact invCore_dequeueFifo s k h
  | dequeuePush k tc prio => exact invCore_dequeuePush s k tc prio h
  | complete n => exact invCore_complete s n h

theorem invCore_init : InvCore initState := by
  refine ⟨?_, ?_, ?_, ?_, ?_, ?_, ?_⟩ <;>
    simp [initState, initRegistry, inflight, countUser]

theorem invCore_foldl (l : List Event) :
    ∀ s : SysState, InvCore s → InvCore (l.foldl stepEvent s) := by
  induction l with
  | nil => intro s hs; exact hs
  | cons e l ih => intro s hs; exact ih _ (invCore_step s e hs)

theorem invCore_run (trace : List Event) : InvCore (run trace) :=
  invCore_foldl trace initState invCore_init


/-! ## C7: the rate divisor -/

theorem filter_singleton_length_le (p : TAgentTaskRequest → Bool)
    (t : TAgentTaskRequest) : ([t].filter p).length ≤ 1 := by
  by_cases hp : p t = true <;> simp [List.filter, hp]

theorem inflight_push_step_le (s : SysState) (e : Event) (h : InvCore s) :
    (inflight (stepEvent s e) TTaskType.PUSH).length ≤
      (inflight s TTaskType.PUSH).length + 1 := by
  cases e with
  | submit t =>
    show (inflight (submit_task s t) TTaskType.PUSH).length ≤ _
    by_cases hmem : t.signature ∈ s.reg.task_signatures t.task_type
    · have hs : submit_task s t = s := by simp [submit_task, record_task_info, hmem]
      rw [hs]
      omega
    · have hfst := record_fst_not_mem s.reg t.task_type t.signature (ownUser t) hmem
      have hstep : submit_task s t =
          { reg := (record_task_info s.reg t.task_type t.signature (ownUser t)).2,
            queues := Function.update s.queues t.task_type
              (s.queues t.task_type ++ [t]),
            running := s.running } := by
        simp only [submit_task]
        rw [hfst]
        simp
      rw [hstep]
      show (Function.update s.queues t.task_type (s.queues t.task_type ++ [t])
          TTaskType.PUSH ++
        s.running.filter (fun x => decide (x.task_type = TTaskType.PUSH))).length ≤ _
      rw [List.length_append, Function.update_apply]
      rw [inflight, List.length_append]
      by_cases hk : TTaskType.PUSH = t.task_type
      · rw [if_pos hk, ← hk, List.length_append]
        simp
        omega
      · rw [if_neg hk]
        omega
  | dequeueFifo k =>
    simp only [stepEvent]
    by_cases hcb : usesPushCallback k
    · rw [if_pos hcb]
      omega
    · rw [if_neg hcb]
      cases hq : s.queues k with
      | nil => exact Nat.le_succ _
      | cons t rest =>
        show (Function.update s.queues k rest TTaskType.PUSH ++
          (s.running ++ [t]).filter
            (fun x => decide (x.task_type = TTaskType.PUSH))).length ≤ _
        rw [List.length_append, Function.update_apply, List.filter_append,
          List.length_append, inflight, List.length_append]
        have h1 := filter_singleton_length_le
          (fun x => decide (x.task_type = TTaskType.PUSH)) t
        by_cases hk : TTaskType.PUSH = k
        · rw [if_pos hk]
          have : (s.queues TTaskType.PUSH).length = rest.length + 1 := by
            rw [hk, hq]
            simp
          omega
        · rw [if_neg hk]
          omega
  | dequeuePush k tc prio =>
    simp only [stepEvent]
    by_cases hcb : usesPushCallback k
    · rw [if_pos hcb]
      by_cases hqe : s.queues k = []
      · rw [if_pos hqe]
        omega
      · rw [if_neg hqe]
        rcases push_worker_select_spec tc (s.queues k) prio s.reg k hqe
          (h.queue_kind k) with hsel | ⟨i, u, hi, hsel, hiso⟩
        · rw [hsel]
          exact Nat.le_succ _
        · rw [hsel]
          show (Function.update s.queues k ((s.queues k).eraseIdx i) TTaskType.PUSH ++
            (s.running ++ [(s.queues k).getD i default]).filter
              (fun x => decide (x.task_type = TTaskType.PUSH))).length ≤ _
          rw [List.length_append, Function.update_apply, List.filter_append,
            List.length_append, inflight, List.length_append]
          have h1 := filter_singleton_length_le
            (fun x => decide (x.task_type = TTaskType.PUSH))
            ((s.queues k).getD i default)
          have h2 : ((s.queues k).eraseIdx i).length ≤ (s.queues k).length :=
            (List.eraseIdx_sublist (s.queues k) i).length_le
          by_cases hk : TTaskType.PUSH = k
          · subst hk
            rw [if_pos rfl]
            omega
          · rw [if_neg hk]
            omega
    · rw [if_neg hcb]
      omega
  | complete n =>
    simp only [stepEvent]
    by_cases hn : n < s.running.length
    · rw [if_pos hn]
      show ((s.queues TTaskType.PUSH) ++
        (s.running.eraseIdx n).filter
          (fun x => decide (x.task_type = TTaskType.PUSH))).length ≤ _
      rw [List.length_append, inflight, List.length_append]
      have h1 : ((s.running.eraseIdx n).filter
          (fun x => decide (x.task_type = TTaskType.PUSH))).length ≤
          (s.running.filter (fun x => decide (x.task_type = TTaskType.PUSH))).length :=
        ((List.eraseIdx_sublist s.running n).filter _).length_le
      omega
    · rw [if_neg hn]
      omega

theorem inflight_push_foldl_le (l : List Event) :
    ∀ s : SysState, InvCore s →
      (inflight (l.foldl stepEvent s) TTaskType.PUSH).length ≤
        (inflight s TTaskType.PUSH).length + l.length := by
  induction l with
  | nil => intro s _; simp
  | cons e l ih =>
    intro s hs
    have h1 := ih (stepEvent s e) (invCore_step s e hs)
    have h2 := inflight_push_step_le s e hs
    simp only [List.foldl_cons, List.length_cons]
    omega

theorem inflight_push_run_le (trace : List Event) :
    (inflight (run trace) TTaskType.PUSH).length ≤ trace.length := by
  have := inflight_push_foldl_le trace initState invCore_init
  simpa [initState, inflight] using this

/-- C7 counterexample: the system state reached by submitting one DELETE
task has a non-empty DELETE pool queue while
`_s_total_task_count[DELETE] = 0` (`_record_task_info` only bumps totals
for `PUSH`): the NORMAL-priority fair-share scan of this queue reaches the
task at index 0 and computes `user_total_rate` with that zero divisor,
contradicting the claim that the divisor is nonzero whenever the queue is
non-empty. -/
theorem c7_counterexample :
    (run [Event.submit exDelete]).queues TTaskType.DELETE ≠ [] ∧
    (run [Event.submit exDelete]).reg.total_task_count TTaskType.DELETE = 0 := by
  decide

/-- C7 (amended): on every reachable state of a trace of fewer than `2^32`
events, the `user_total_rate` divisor `_s_total_task_count[kind]` is
nonzero for the PUSH kind whenever the PUSH queue is non-empty (admission
incremented it first); but for the DELETE kind — whose tasks run through
the same selector — the divisor is always zero, since admission never
increments totals for non-PUSH kinds. -/
theorem c7_rate_divisor (trace : List Event) (hlen : trace.length < U32_MOD) :
    ((run trace).queues TTaskType.PUSH ≠ [] →
      (run trace).reg.total_task_count TTaskType.PUSH ≠ 0) ∧
    (run trace).reg.total_task_count TTaskType.DELETE = 0 := by
  have hinv := invCore_run trace
  constructor
  · intro hq
    rw [hinv.total_kind]
    have hcnt : 1 ≤ (inflight (run trace) TTaskType.PUSH).length := by
      rw [inflight, List.length_append]
      have := List.length_pos.mpr hq
      omega
    have hle := inflight_push_run_le trace
    rw [Nat.mod_eq_of_lt (by omega)]
    omega
  · exact hinv.total_kind_other TTaskType.DELETE (by decide)

/-- C7 witness: after submitting one PUSH task the PUSH divisor is `1 ≠ 0`
while the DELETE divisor is `0`. -/
theorem c7_witness :
    (run [Event.submit exPushA]).reg.total_task_count TTaskType.PUSH ≠ 0 ∧
    (run [Event.submit exPushA]).reg.total_task_count TTaskType.DELETE = 0 :=
  ⟨(c7_rate_divisor [Event.submit exPushA] (by decide)).1 (by decide),
   (c7_rate_divisor [Event.submit exPushA] (by decide)).2⟩


/-! ## C8: drained-state accounting -/

theorem invFull_submit (s : SysState) (t : TAgentTaskRequest) (h : InvFull s)
    (ht : t.isset_resource_info = true) : InvFull (submit_task s t) := by
  refine ⟨invCore_submit s t h.toInvCore, ?_, ?_, ?_⟩
  · intro k x hx
    by_cases hmem : t.signature ∈ s.reg.task_signatures t.task_type
    · have hs : submit_task s t = s := by simp [submit_task, record_task_info, hmem]
      rw [hs] at hx
      exact h.isset_queues k x hx
    · have hfst := record_fst_not_mem s.reg t.task_type t.signature (ownUser t) hmem
      have hstep : submit_task s t =
          { reg := (record_task_info s.reg t.task_type t.signature (ownUser t)).2,
            queues := Function.update s.queues t.task_type
              (s.queues t.task_type ++ [t]),
            running := s.running } := by
        simp only [submit_task]
        rw [hfst]
        simp
      rw [hstep] at hx
      have hx2 : x ∈ Function.update s.queues t.task_type
          (s.queues t.task_type ++ [t]) k := hx
      rw [Function.update_apply] at hx2
      by_cases hk : k = t.task_type
      · rw [if_pos hk] at hx2
        rcases List.mem_append.mp hx2 with hx3 | hx3
        · exact h.isset_queues t.task_type x hx3
        · rw [List.mem_singleton.mp hx3]
          exact ht
      · rw [if_neg hk] at hx2
        exact h.isset_queues k x hx2
  · intro x hx
    by_cases hmem : t.signature ∈ s.reg.task_signatures t.task_type
    · have hs : submit_task s t = s := by simp [submit_task, record_task_info, hmem]
      rw [hs] at hx
      exact h.isset_running x hx
    · have hfst := record_fst_not_mem s.reg t.task_type t.signature (ownUser t) hmem
      have hstep : submit_task s t =
          { reg := (record_task_info s.reg t.task_type t.signature (ownUser t)).2,
            queues := Function.update s.queues t.task_type
              (s.queues t.task_type ++ [t]),
            running := s.running } := by
        simp only [submit_task]
        rw [hfst]
        simp
      rw [hstep] at hx
      exact h.isset_running x hx
  · intro u
    by_cases hmem : t.signature ∈ s.reg.task_signatures t.task_type
    · have hs : submit_task s t = s := by simp [submit_task, record_task_info, hmem]
      rw [hs]
      exact h.running_push u
    · have hfst := record_fst_not_mem s.reg t.task_type t.signature (ownUser t) hmem
      have hstep : submit_task s t =
          { reg := (record_task_info s.reg t.task_type t.signature (ownUser t)).2,
            queues := Function.update s.queues t.task_type
              (s.queues t.task_type ++ [t]),
            running := s.running } := by
        simp only [submit_task]
        rw [hfst]
        simp
      rw [hstep]
      show (record_task_info s.reg t.task_type t.signature (ownUser t)).2.running_task_user_count
        TTaskType.PUSH u = _
    
      rw [record_running_eq]
      exact h.running_push u

theorem invFull_dequeueFifo (s : SysState) (k : TTaskType) (h : InvFull s) :
    InvFull (stepEvent s (Event.dequeueFifo k)) := by
  refine ⟨invCore_dequeueFifo s k h.toInvCore, ?_, ?_, ?_⟩ <;>
    simp only [stepEvent]
  · by_cases hcb : usesPushCallback k
    · rw [if_pos hcb]
      exact h.isset_queues
    · rw [if_neg hcb]
      cases hq : s.queues k with
      | nil => exact h.isset_queues
      | cons t rest =>
        intro k2 x hx
        have hx2 : x ∈ Function.update s.queues k rest k2 := hx
        rw [Function.update_apply] at hx2
        by_cases hk2 : k2 = k
        · rw [if_pos hk2] at hx2
          refine h.isset_queues k x ?_
          rw [hq]
          exact List.mem_cons_of_mem t hx2
        · rw [if_neg hk2] at hx2
          exact h.isset_queues k2 x hx2
  · by_cases hcb : usesPushCallback k
    · rw [if_pos hcb]
      exact h.isset_running
    · rw [if_neg hcb]
      cases hq : s.queues k with
      | nil => exact h.isset_running
      | cons t rest =>
        intro x hx
        have hx2 : x ∈ s.running ++ [t] := hx
        rcases List.mem_append.mp hx2 with hx3 | hx3
        · exact h.isset_running x hx3
        · rw [List.mem_singleton.mp hx3]
          refine h.isset_queues k t ?_
          rw [hq]
          exact List.mem_cons_self _ _
  · by_cases hcb : usesPushCallback k
    · rw [if_pos hcb]
      exact h.running_push
    · rw [if_neg hcb]
      cases hq : s.queues k with
      | nil => exact h.running_push
      | cons t rest =>
        intro u
        have hkt : t.task_type = k :=
          h.queue_kind k t (by rw [hq]; exact List.mem_cons_self _ _)
        have hkP : k ≠ TTaskType.PUSH := by
          intro he
          rw [he] at hcb
          exact hcb (by decide)
        show s.reg.running_task_user_count TTaskType.PUSH u =
          countUser ((s.running ++ [t]).filter
            (fun x => decide (x.task_type = TTaskType.PUSH))) u % U32_MOD
        rw [List.filter_append,
          show [t].filter (fun x => decide (x.task_type = TTaskType.PUSH)) = [] from by
            simp [hkt]
            exact hkP,
          List.append_nil]
        exact h.running_push u


theorem countUser_append (l1 l2 : List TAgentTaskRequest) (u : String) :
    countUser (l1 ++ l2) u = countUser l1 u + countUser l2 u := by
  simp [countUser, List.countP_append]

theorem countUser_singleton (t : TAgentTaskRequest) (u : String) :
    countUser [t] u = if ownUser t = u then 1 else 0 := by
  simp [countUser, List.countP_cons]

theorem invFull_dequeuePush (s : SysState) (k : TTaskType) (tc : Nat)
    (prio : TPriority) (h : InvFull s) :
    InvFull (stepEvent s (Event.dequeuePush k tc prio)) := by
  refine ⟨invCore_dequeuePush s k tc prio h.toInvCore, ?_, ?_, ?_⟩ <;>
    simp only [stepEvent]
  · by_cases hcb : usesPushCallback k
    · rw [if_pos hcb]
      by_cases hqe : s.queues k = []
      · rw [if_pos hqe]
        exact h.isset_queues
      · rw [if_neg hqe]
        rcases push_worker_select_spec tc (s.queues k) prio s.reg k hqe
          (h.queue_kind k) with hsel | ⟨i, u, hi, hsel, hiso⟩
        · rw [hsel]
          exact h.isset_queues
        · rw [hsel]
          intro k2 x hx
          have hx2 : x ∈ Function.update s.queues k ((s.queues k).eraseIdx i) k2 := hx
          rw [Function.update_apply] at hx2
          by_cases hk2 : k2 = k
          · rw [if_pos hk2] at hx2
            exact h.isset_queues k x ((List.eraseIdx_sublist (s.queues k) i).mem hx2)
          · rw [if_neg hk2] at hx2
            exact h.isset_queues k2 x hx2
    · rw [if_neg hcb]
      exact h.isset_queues
  · by_cases hcb : usesPushCallback k
    · rw [if_pos hcb]
      by_cases hqe : s.queues k = []
      · rw [if_pos hqe]
        exact h.isset_running
      · rw [if_neg hqe]
        rcases push_worker_select_spec tc (s.queues k) prio s.reg k hqe
          (h.queue_kind k) with hsel | ⟨i, u, hi, hsel, hiso⟩
        · rw [hsel]
          exact h.isset_running
        · rw [hsel]
          intro x hx
          have hx2 : x ∈ s.running ++ [(s.queues k).getD i default] := hx
          rcases List.mem_append.mp hx2 with hx3 | hx3
          · exact h.isset_running x hx3
          · rw [List.mem_singleton.mp hx3]
            exact h.isset_queues k _ (getD_mem_of_lt _ i hi)
    · rw [if_neg hcb]
      exact h.isset_running
  · by_cases hcb : usesPushCallback k
    · rw [if_pos hcb]
      by_cases hqe : s.queues k = []
      · rw [if_pos hqe]
        exact h.running_push
      · rw [if_neg hqe]
        rcases push_worker_select_spec tc (s.queues k) prio s.reg k hqe
          (h.queue_kind k) with hsel | ⟨i, u, hi, hsel, hiso⟩
        · rw [hsel]
          exact h.running_push
        · rw [hsel]
          intro u2
          set chosen := (s.queues k).getD i default with hch
          have hchk : chosen.task_type = k :=
            h.queue_kind k chosen (getD_mem_of_lt _ i hi)
          have hcis : chosen.isset_resource_info = true :=
            h.isset_queues k chosen (getD_mem_of_lt _ i hi)
          have hu : u = chosen.user := hiso (h.isset_queues k)
          have hou : ownUser chosen = chosen.user := by
            rw [ownUser, if_pos hcis]
          show updateCount s.reg.running_task_user_count chosen.task_type u
            (u32inc (s.reg.running_task_user_count chosen.task_type u))
            TTaskType.PUSH u2 =
            countUser ((s.running ++ [chosen]).filter
              (fun x => decide (x.task_type = TTaskType.PUSH))) u2 % U32_MOD
          rw [updateCount_apply, hchk, List.filter_append]
          by_cases hkP : TTaskType.PUSH = k
          · subst hkP
            rw [if_pos rfl]
            have hfc : [chosen].filter
                (fun x => decide (x.task_type = TTaskType.PUSH)) = [chosen] := by
              simp [hchk]
            rw [hfc, countUser_append, countUser_singleton, hou]
            by_cases hu2 : u2 = u
            · subst hu2
              rw [if_pos rfl, if_pos hu.symm, h.running_push u2, hu,
                runningOfKind, u32inc_mod]
            · rw [if_neg hu2, if_neg (fun he => hu2 (he.symm.trans hu.symm)),
                Nat.add_zero, h.running_push u2, runningOfKind]
          · rw [if_neg hkP]
            have hfc : [chosen].filter
                (fun x => decide (x.task_type = TTaskType.PUSH)) = [] := by
              simp [hchk]
              exact fun he => hkP he.symm
            rw [hfc, List.append_nil]
            exact h.running_push u2
    · rw [if_neg hcb]
      exact h.running_push

theorem invFull_complete (s : SysState) (n : Nat) (h : InvFull s) :
    InvFull (stepEvent s (Event.complete n)) := by
  refine ⟨invCore_complete s n h.toInvCore, ?_, ?_, ?_⟩ <;>
    simp only [stepEvent]
  · by_cases hn : n < s.running.length
    · rw [if_pos hn]
      exact h.isset_queues
    · rw [if_neg hn]
      exact h.isset_queues
  · by_cases hn : n < s.running.length
    · rw [if_pos hn]
      intro x hx
      exact h.isset_running x ((List.eraseIdx_sublist s.running n).mem hx)
    · rw [if_neg hn]
      exact h.isset_running
  · by_cases hn : n < s.running.length
    · rw [if_pos hn]
      intro u2
      set t := s.running.getD n default with ht
      have hrperm : s.running.Perm (t :: s.running.eraseIdx n) :=
        getD_cons_eraseIdx_perm _ n hn
      have hfperm : (s.running.filter
          (fun x => decide (x.task_type = TTaskType.PUSH))).Perm
          ((t :: s.running.eraseIdx n).filter
            (fun x => decide (x.task_type = TTaskType.PUSH))) :=
        hrperm.filter _
      by_cases hp : t.task_type = TTaskType.PUSH
      · have huP : (if usesPushCallback t.task_type then ownUser t else "") =
            ownUser t := by
          rw [hp]
          simp [usesPushCallback]
        show (remove_task_info s.reg t.task_type t.signature
            (if usesPushCallback t.task_type then ownUser t else "")).running_task_user_count
            TTaskType.PUSH u2 =
          countUser ((s.running.eraseIdx n).filter
            (fun x => decide (x.task_type = TTaskType.PUSH))) u2 % U32_MOD
        rw [huP, hp, remove_running_push, updateCount_apply, if_pos rfl]
        have hfc : (t :: s.running.eraseIdx n).filter
            (fun x => decide (x.task_type = TTaskType.PUSH)) =
            t :: (s.running.eraseIdx n).filter
              (fun x => decide (x.task_type = TTaskType.PUSH)) :=
          List.filter_cons_of_pos (by simp [hp])
        have hcount : countUser (runningOfKind s TTaskType.PUSH) u2 =
            countUser ((s.running.eraseIdx n).filter
              (fun x => decide (x.task_type = TTaskType.PUSH))) u2 +
              (if ownUser t = u2 then 1 else 0) := by
          rw [runningOfKind, countUser_perm hfperm, hfc, countUser_cons]
        by_cases hu2 : u2 = ownUser t
        · subst hu2
          rw [if_pos rfl, h.running_push (ownUser t), hcount, if_pos rfl,
            u32dec_mod_succ]
        · rw [if_neg hu2, h.running_push u2, hcount,
            if_neg (fun he => hu2 he.symm), Nat.add_zero]
      · show (remove_task_info s.reg t.task_type t.signature
            (if usesPushCallback t.task_type then ownUser t else "")).running_task_user_count
            TTaskType.PUSH u2 =
          countUser ((s.running.eraseIdx n).filter
            (fun x => decide (x.task_type = TTaskType.PUSH))) u2 % U32_MOD
        rw [(remove_counters_not_push s.reg t.task_type t.signature _ hp).1,
          h.running_push u2, runningOfKind]
        have hfc : (t :: s.running.eraseIdx n).filter
            (fun x => decide (x.task_type = TTaskType.PUSH)) =
            (s.running.eraseIdx n).filter
              (fun x => decide (x.task_type = TTaskType.PUSH)) := by
          refine List.filter_cons_of_neg ?_
          simp
          exact hp
        rw [countUser_perm hfperm, hfc]
    · rw [if_neg hn]
      exact h.running_push

theorem invFull_step (s : SysState) (e : Event) (h : InvFull s)
    (he : eventIsset e) : InvFull (stepEvent s e) := by
  cases e with
  | submit t => exact invFull_submit s t h he
  | dequeueFifo k => exact invFull_dequeueFifo s k h
  | dequeuePush k tc prio => exact invFull_dequeuePush s k tc prio h
  | complete n => exact invFull_complete s n h

theorem invFull_init : InvFull initState := by
  refine ⟨invCore_init, ?_, ?_, ?_⟩ <;>
    simp [initState, initRegistry, allIsset, runningOfKind, countUser]

theorem invFull_foldl (l : List Event) :
    ∀ s : SysState, InvFull s → (∀ e ∈ l, eventIsset e) →
      InvFull (l.foldl stepEvent s) := by
  induction l with
  | nil => intro s hs _; exact hs
  | cons e l ih =>
    intro s hs hl
    exact ih _ (invFull_step s e hs (hl e (List.mem_cons_self _ _)))
      (fun x hx => hl x (List.mem_cons_of_mem e hx))

theorem invFull_run (trace : List Event) (h : ∀ e ∈ trace, eventIsset e) :
    InvFull (run trace) :=
  invFull_foldl trace initState invFull_init h


/-- C8 counterexample: submit one DELETE task, select it with a
NORMAL-priority push-callback worker, complete it. Every queue and the
running set drain, yet `running_task_user_count[DELETE]["a"] = 1`: the
selector incremented it at selection but `_remove_task_info` (gated on
`PUSH`) never decremented it — so the counters are NOT all zero after the
pools drain. -/
theorem c8_counterexample :
    (∀ k, (run exDeleteTrace).queues k = []) ∧
    (run exDeleteTrace).running = [] ∧
    (run exDeleteTrace).reg.running_task_user_count TTaskType.DELETE "a" = 1 := by
  refine ⟨?_, by decide, by decide⟩
  intro k
  cases k <;> rfl

/-- C8 (amended): for every finite trace whose submissions all carry
`resource_info`, once all pools drain (every queue empty, no task
executing) the live signature sets are all empty, `total_task_user_count`
and `total_task_count` are zero for every kind, and
`running_task_user_count` is zero for `PUSH`. (For DELETE tasks, which run
through the push callback and the fair-share selector, the running
counter is NOT restored: it keeps one increment per executed task, as the
counterexample shows.) -/
theorem c8_drained_state (trace : List Event)
    (hisset : ∀ e ∈ trace, eventIsset e)
    (hq : ∀ k, (run trace).queues k = [])
    (hr : (run trace).running = []) :
    (∀ k, (run trace).reg.task_signatures k = []) ∧
    (∀ k u, (run trace).reg.total_task_user_count k u = 0) ∧
    (∀ k, (run trace).reg.total_task_count k = 0) ∧
    (∀ u, (run trace).reg.running_task_user_count TTaskType.PUSH u = 0) := by
  have hinv := invFull_run trace hisset
  have hinf : ∀ k, inflight (run trace) k = [] := by
    intro k
    rw [inflight, hq k, hr]
    rfl
  refine ⟨?_, ?_, ?_, ?_⟩
  · intro k
    refine List.eq_nil_iff_forall_not_mem.mpr ?_
    intro sig hsig
    obtain ⟨x, hx, _⟩ := (hinv.live k sig).mp hsig
    rw [hinf k] at hx
    exact absurd hx (List.not_mem_nil x)
  · intro k u
    by_cases hk : k = TTaskType.PUSH
    · subst hk
      rw [hinv.total_user u, hinf TTaskType.PUSH]
      rfl
    · exact hinv.total_user_other k hk u
  · intro k
    by_cases hk : k = TTaskType.PUSH
    · subst hk
      rw [hinv.total_kind, hinf TTaskType.PUSH]
      rfl
    · exact hinv.total_kind_other k hk
  · intro u
    rw [hinv.running_push u, runningOfKind, hr]
    rfl

/-- C8 witness: the drained-state theorem applied to the three-event PUSH
trace submit, select, complete. -/
theorem c8_witness :
    (∀ k, (run exPushTrace).reg.task_signatures k = []) ∧
    (∀ k u, (run exPushTrace).reg.total_task_user_count k u = 0) ∧
    (∀ k, (run exPushTrace).reg.total_task_count k = 0) ∧
    (∀ u, (run exPushTrace).reg.running_task_user_count TTaskType.PUSH u = 0) :=
  c8_drained_state exPushTrace
    (by
      intro e he
      simp only [exPushTrace, List.mem_cons, List.not_mem_nil, or_false] at he
      rcases he with rfl | rfl | rfl
      · exact rfl
      · trivial
      · trivial)
    (by intro k; cases k <;> rfl)
    (by rfl)

end DorisAgent
